import Mathlib

/-!
SpaceShooterGame: the engine of `src/App.jsx`.

A shallow embedding of the game engine (`ArchadeGame`, `Player`, `Enemy`,
`Bullet`, `Particle`) and theorems about it.

Conventions of the embedding

* JavaScript numbers are rationals (`ℚ`); integer counters (`score`, `level`,
  `lives`, `health`, `points`, bullet `life`) are `ℤ`.
* Two computations are carried out as the code carries them out, in IEEE
  doubles: the distance test `Math.sqrt(dx * dx + dy * dy) < r1 + r2` of the
  `collidesWith` methods and of the drag listeners, and the spawn cadence
  `Math.max(0.5, 2 - (level - 1) * 0.2)` with the spawn test that reads it.
  There `fl` rounds the exact result of one operation to the nearest double
  (ties to even) and `fsqrt` is the correctly rounded square root; the exponent
  range is taken unbounded (no overflow, no subnormal numbers). The other
  operations (a position moved by a velocity, the clamp, the integer
  counters) are exact.
* `Math.cos`, `Math.sin`, `Math.atan2` and `Math.random` are library functions
  outside the repository: they are the fields of `Env`. `Math.random` is a
  stream, `Env.random k` being the result of the `k`-th call; the engine state
  carries the ghost counter `draws` of calls made so far. `Date.now()` is read
  twice in a tick and both readings are arguments of `update`.
* The optional callbacks of the host are a ghost log of invocations
  (`Game.log`).
* Objects are values. The only place where the source relies on object
  identity is `this.enemies.indexOf(enemy)` inside the `for ... of` loop over
  `this.enemies`; every element of that array is a distinct object, so the
  call returns the index the iterator is at.
-/

namespace SpaceShooter

/-! ## Library functions and host input -/

/-- The library functions the engine calls. -/
structure Env where
  cos : ℚ → ℚ
  sin : ℚ → ℚ
  atan2 : ℚ → ℚ → ℚ
  random : ℕ → ℚ

/-! ## Doubles -/

/-- Rounding of a rational to the nearest integer, a tie going to the even one. -/
def roundEven (x : ℚ) : ℤ :=
  let f := Int.floor x
  if x - f < 1 / 2 then f
  else if 1 / 2 < x - f then f + 1
  else if f % 2 = 0 then f else f + 1

/-- The double nearest to `x`, a tie going to the even significand: with
`2 ^ e ≤ |x| < 2 ^ (e + 1)` the doubles around `x` are the multiples of
`2 ^ (e - 52)`. -/
def fl (x : ℚ) : ℚ :=
  let u : ℚ := 2 ^ (Int.log 2 |x| - 52)
  roundEven (x / u) * u

/-- The integer nearest to the square root of `y ≥ 0`, a tie going to the even one. -/
def sqrtRound (y : ℚ) : ℤ :=
  let s : ℤ := Nat.sqrt (Nat.floor y)
  if y < (s + 1 / 2) ^ 2 then s
  else if (s + 1 / 2) ^ 2 < y then s + 1
  else if s % 2 = 0 then s else s + 1

/-- The library function `Math.sqrt` on a double `x ≥ 0`: the double nearest to the square
root. With `4 ^ h ≤ x < 4 ^ (h + 1)` the root is in `[2 ^ h, 2 ^ (h + 1))`, where the
doubles are the multiples of `2 ^ (h - 52)`. -/
def fsqrt (x : ℚ) : ℚ :=
  if x ≤ 0 then 0
  else
    let u : ℚ := 2 ^ (Int.log 4 x - 52)
    sqrtRound (x / (u * u)) * u

/-- The body of `collidesWith(enemy)` in `Player` and in `Bullet`, on the position and
radius of `this` and of `enemy`, every operation rounded to a double:
`dx = this.x - enemy.x`, `dy = this.y - enemy.y`,
`distance = Math.sqrt(dx * dx + dy * dy)`, `distance < this.radius + enemy.radius`. -/
def circlesOverlap (x y radius ex ey eradius : ℚ) : Bool :=
  let dx := fl (x - ex)
  let dy := fl (y - ey)
  let distance := fsqrt (fl (fl (dx * dx) + fl (dy * dy)))
  decide (distance < fl (radius + eradius))

/-- The eight entries of `this.keys` that `Player.update` reads. -/
structure Keys where
  arrowup : Bool
  w : Bool
  arrowdown : Bool
  s : Bool
  arrowleft : Bool
  a : Bool
  arrowright : Bool
  d : Bool
deriving DecidableEq, Repr

/-! ## Entities -/

/-- The fields of `class Player`. -/
structure Player where
  x : ℚ
  y : ℚ
  radius : ℚ
  vx : ℚ
  vy : ℚ
  speed : ℚ
  angle : ℚ
  shootCooldown : ℚ
deriving DecidableEq, Repr

/-- The fields of `class Enemy`. -/
structure Enemy where
  x : ℚ
  y : ℚ
  radius : ℚ
  health : ℤ
  maxHealth : ℤ
  speed : ℚ
  points : ℤ
  angle : ℚ
  canvasWidth : ℚ
  canvasHeight : ℚ
deriving DecidableEq, Repr

/-- The fields of `class Bullet`. -/
structure Bullet where
  x : ℚ
  y : ℚ
  vx : ℚ
  vy : ℚ
  radius : ℚ
  life : ℤ
deriving DecidableEq, Repr

/-- The fields of `class Particle`. -/
structure Particle where
  x : ℚ
  y : ℚ
  vx : ℚ
  vy : ℚ
  life : ℚ
  color : String
  decay : ℚ
deriving DecidableEq, Repr

/-- Constructor `new Player(x, y)`. -/
def Player.new (x y : ℚ) : Player :=
  { x := x, y := y, radius := 20, vx := 0, vy := 0, speed := 5, angle := 0,
    shootCooldown := 0 }

/-- Method `Player.update(keys, canvasWidth, canvasHeight)`. -/
def Player.update (p : Player) (keys : Keys) (canvasWidth canvasHeight : ℚ) : Player :=
  let vx0 : ℚ := 0
  let vy0 : ℚ := 0
  let vy1 := if keys.arrowup || keys.w then vy0 - p.speed else vy0
  let vy2 := if keys.arrowdown || keys.s then vy1 + p.speed else vy1
  let vx1 := if keys.arrowleft || keys.a then vx0 - p.speed else vx0
  let vx2 := if keys.arrowright || keys.d then vx1 + p.speed else vx1
  let x1 := p.x + vx2
  let y1 := p.y + vy2
  let x2 := max p.radius (min (canvasWidth - p.radius) x1)
  let y2 := max p.radius (min (canvasHeight - p.radius) y1)
  { p with
    vx := vx2, vy := vy2, x := x2, y := y2,
    shootCooldown := if p.shootCooldown > 0 then p.shootCooldown - 1 else p.shootCooldown }

/-- Method `Player.aimAt(x, y)`. -/
def Player.aimAt (env : Env) (p : Player) (x y : ℚ) : Player :=
  { p with angle := env.atan2 (y - p.y) (x - p.x) }

/-- Method `Player.collidesWith(enemy)`. -/
def Player.collidesWith (p : Player) (enemy : Enemy) : Bool :=
  circlesOverlap p.x p.y p.radius enemy.x enemy.y enemy.radius

/-- Constructor `new Enemy(x, y, level, canvasWidth, canvasHeight)`. -/
def Enemy.new (env : Env) (x y : ℚ) (level : ℤ) (canvasWidth canvasHeight : ℚ) : Enemy :=
  { x := x, y := y,
    radius := 15 + level,
    health := 1 + Int.floor ((level : ℚ) / 2),
    maxHealth := 1 + Int.floor ((level : ℚ) / 2),
    speed := 1.5 + level * 0.3,
    points := 10 * level,
    angle := env.atan2 (canvasHeight / 2 - y) (canvasWidth / 2 - x),
    canvasWidth := canvasWidth, canvasHeight := canvasHeight }

/-- Method `Enemy.update(canvasWidth, canvasHeight)`; the arguments are not used by the body. -/
def Enemy.update (env : Env) (e : Enemy) : Enemy :=
  { e with x := e.x + env.cos e.angle * e.speed, y := e.y + env.sin e.angle * e.speed }

/-- Method `Enemy.takeDamage()`. -/
def Enemy.takeDamage (e : Enemy) : Enemy :=
  { e with health := e.health - 1 }

/-- Constructor `new Bullet(x, y, angle)`. -/
def Bullet.new (env : Env) (x y angle : ℚ) : Bullet :=
  { x := x, y := y, vx := env.cos angle * 8, vy := env.sin angle * 8, radius := 3, life := 100 }

/-- Method `Bullet.update()`. -/
def Bullet.update (b : Bullet) : Bullet :=
  { b with x := b.x + b.vx, y := b.y + b.vy, life := b.life - 1 }

/-- Method `Bullet.collidesWith(enemy)`. -/
def Bullet.collidesWith (b : Bullet) (enemy : Enemy) : Bool :=
  circlesOverlap b.x b.y b.radius enemy.x enemy.y enemy.radius

/-- Constructor `new Particle(x, y, color)`: three calls of `Math.random`, for `vx`, `vy`
and `decay` in this order, the first being call number `k`. -/
def Particle.new (env : Env) (k : ℕ) (x y : ℚ) (color : String) : Particle :=
  { x := x, y := y,
    vx := (env.random k - 0.5) * 8,
    vy := (env.random (k + 1) - 0.5) * 8,
    life := 1, color := color,
    decay := env.random (k + 2) * 0.02 + 0.01 }

/-- Method `Particle.update()`. -/
def Particle.update (p : Particle) : Particle :=
  { p with x := p.x + p.vx, y := p.y + p.vy, vx := p.vx * 0.98, vy := p.vy * 0.98,
           life := p.life - p.decay }

/-! ## The engine -/

/-- The names of the keys `Player.update` reads; every other key leaves no trace
in the behaviour of the engine. -/
inductive KeyName
  | arrowup | w | arrowdown | s | arrowleft | a | arrowright | d
deriving DecidableEq, Repr

/-- No key held: the initial `this.keys = {}`. -/
def Keys.released : Keys :=
  ⟨false, false, false, false, false, false, false, false⟩

/-- The assignment `this.keys[k] = v` of the `keydown` and `keyup` listeners. -/
def Keys.set (keys : Keys) (k : KeyName) (v : Bool) : Keys :=
  match k with
  | .arrowup => { keys with arrowup := v }
  | .w => { keys with w := v }
  | .arrowdown => { keys with arrowdown := v }
  | .s => { keys with s := v }
  | .arrowleft => { keys with arrowleft := v }
  | .a => { keys with a := v }
  | .arrowright => { keys with arrowright := v }
  | .d => { keys with d := v }

/-- An invocation of one of the callbacks of the host. -/
inductive Event
  | onScoreChange (score : ℤ)
  | onLevelChange (level : ℤ)
  | onLivesChange (lives : ℤ)
  | onGameOver
  | onGameStart
deriving DecidableEq, Repr

/-- The fields of `class ArchadeGame`. `width` and `height` are those of
`this.canvas`; `log` and `draws` are ghost fields (callback invocations so far,
calls of `Math.random` so far). The decorative `stars` are left out. -/
structure Game where
  width : ℚ
  height : ℚ
  player : Option Player
  bullets : List Bullet
  enemies : List Enemy
  particles : List Particle
  score : ℤ
  level : ℤ
  lives : ℤ
  gameRunning : Bool
  enemySpawnRate : ℚ
  lastEnemySpawn : ℚ
  keys : Keys
  mouseX : ℚ
  mouseY : ℚ
  isDragging : Bool
  dragStartX : ℚ
  dragStartY : ℚ
  log : List Event
  draws : ℕ
deriving DecidableEq, Repr

/-- Constructor `new ArchadeGame(canvas, callbacks)` on a window of the given size.
`initStars` makes four calls of `Math.random` for each of its 100 stars; the
first `update` of `gameLoop` returns at once, the game not running. -/
def Game.init (innerWidth innerHeight : ℚ) : Game :=
  { width := innerWidth, height := innerHeight,
    player := none, bullets := [], enemies := [], particles := [],
    score := 0, level := 1, lives := 3, gameRunning := false,
    enemySpawnRate := 2, lastEnemySpawn := 0,
    keys := Keys.released, mouseX := 0, mouseY := 0,
    isDragging := false, dragStartX := 0, dragStartY := 0,
    log := [], draws := 400 }

/-- Method `start()`. -/
def Game.start (g : Game) : Game :=
  if g.gameRunning then g
  else
    { g with
      gameRunning := true,
      log := g.log ++ [Event.onGameStart],
      player := some (Player.new (g.width / 2) (g.height - 80)) }

/-- Method `reset()`. -/
def Game.reset (g : Game) : Game :=
  { g with
    score := 0, level := 1, lives := 3, enemySpawnRate := 2, lastEnemySpawn := 0,
    bullets := [], enemies := [], particles := [], gameRunning := false }

/-- Method `createExplosion(x, y, color)`. The loop `for (i = 0; i < particleCount; i++)`
runs `⌈particleCount⌉` times (not at all when `particleCount ≤ 0`). -/
def Game.createExplosion (env : Env) (g : Game) (x y : ℚ) (color : String) : Game :=
  let particleCount := env.random g.draws * 10 + 15
  let n := (Int.ceil particleCount).toNat
  { g with
    particles := g.particles ++
      (List.range n).map (fun i => Particle.new env (g.draws + 1 + 3 * i) x y color),
    draws := g.draws + 1 + 3 * n }

/-- Method `spawnEnemy()`. -/
def Game.spawnEnemy (env : Env) (g : Game) : Game :=
  let left : Bool := decide (env.random g.draws > 0.5)
  let x : ℚ := if left then -40 else g.width + 40
  let y : ℚ := env.random (g.draws + 1) * (g.height * 0.7)
  { g with
    enemies := g.enemies ++ [Enemy.new env x y g.level g.width g.height],
    draws := g.draws + 2 }

/-- The bullet pass of `update`: every bullet is updated and kept when
`bullet.x > 0 && bullet.x < width && bullet.y > 0 && bullet.y < height`. -/
def updateBullets (width height : ℚ) (bullets : List Bullet) : List Bullet :=
  bullets.filterMap fun bullet =>
    let b := bullet.update
    if b.x > 0 && b.x < width && b.y > 0 && b.y < height then some b else none

/-- The enemy pass of `update`: every enemy is updated and kept when `enemy.health > 0`. -/
def updateEnemies (env : Env) (enemies : List Enemy) : List Enemy :=
  enemies.filterMap fun enemy =>
    let e := enemy.update env
    if e.health > 0 then some e else none

/-- The particle pass of `update`: every particle is updated and kept when `p.life > 0`. -/
def updateParticles (particles : List Particle) : List Particle :=
  particles.filterMap fun p =>
    let q := p.update
    if q.life > 0 then some q else none

/-- The inner loop `for (j = enemies.length - 1; j >= 0; j--)` of the bullet pass of
`checkCollisions`: `findHit b enemies n` tries the indices `n - 1, ..., 0` in this
order and returns the first at which the bullet overlaps the enemy. -/
def findHit (b : Bullet) (enemies : List Enemy) : ℕ → Option ℕ
  | 0 => none
  | j + 1 =>
    match enemies[j]? with
    | some e => if b.collidesWith e then some j else findHit b enemies j
    | none => findHit b enemies j

/-- The body of `if (this.bullets[i].collidesWith(this.enemies[j]))`:
`takeDamage`, the bullet spliced out, and score and explosion when the health
of the enemy is `<= 0`. The enemy stays in `this.enemies`. -/
def Game.bulletHit (env : Env) (g : Game) (i j : ℕ) (e : Enemy) : Game :=
  let e1 := e.takeDamage
  let g1 := { g with enemies := g.enemies.set j e1, bullets := g.bullets.eraseIdx i }
  if e1.health ≤ 0 then
    Game.createExplosion env { g1 with score := g1.score + e1.points } e1.x e1.y "#00ff88"
  else g1

/-- The outer loop `for (i = bullets.length - 1; i >= 0; i--)` of `checkCollisions`,
with `i` indices left. Index `i` is always inside `this.bullets` (a splice at
`i` moves only the elements above it). -/
def Game.bulletEnemyLoop (env : Env) : ℕ → Game → Game
  | 0, g => g
  | i + 1, g =>
    match g.bullets[i]? with
    | none => Game.bulletEnemyLoop env i g
    | some b =>
      match findHit b g.enemies g.enemies.length with
      | none => Game.bulletEnemyLoop env i g
      | some j =>
        match g.enemies[j]? with
        | none => Game.bulletEnemyLoop env i g
        | some e => Game.bulletEnemyLoop env i (Game.bulletHit env g i j e)

/-- The body of `if (this.player.collidesWith(enemy))` with the iterator at index `i`:
a life lost, a red explosion at the player, the enemy spliced out. -/
def Game.playerHit (env : Env) (p : Player) (g : Game) (i : ℕ) : Game :=
  let g1 := Game.createExplosion env { g with lives := g.lives - 1 } p.x p.y "red"
  { g1 with enemies := g1.enemies.eraseIdx i }

/-- The loop `for (const enemy of this.enemies)` of `checkCollisions`. The array
iterator holds an index, yields `this.enemies[i]` while `i` is less than the
current length, and steps to `i + 1` whatever the body did to the array. The
first argument bounds the number of iterations. -/
def Game.enemyPlayerLoop (env : Env) (p : Player) : ℕ → ℕ → Game → Game
  | 0, _, g => g
  | fuel + 1, i, g =>
    match g.enemies[i]? with
    | none => g
    | some e =>
      if p.collidesWith e then
        Game.enemyPlayerLoop env p fuel (i + 1) (Game.playerHit env p g i)
      else Game.enemyPlayerLoop env p fuel (i + 1) g

/-- Method `checkCollisions()`, `p` being `this.player`. The array has at most
`enemies.length` elements to yield, so that many iterations end the second loop
(`enemyPlayerLoop_fuel`). -/
def Game.checkCollisions (env : Env) (p : Player) (g : Game) : Game :=
  let g1 := Game.bulletEnemyLoop env g.bullets.length g
  let g2 := Game.enemyPlayerLoop env p g1.enemies.length 0 g1
  { g2 with
    log := g2.log ++
      [Event.onScoreChange g2.score, Event.onLivesChange g2.lives, Event.onLevelChange g2.level] }

/-- The expression `Math.max(0.5, 2 - (this.level - 1) * 0.2)` of `updateDifficulty` as
the code evaluates it: the literal `0.2` is the double nearest to `1/5`, the
product and the difference are rounded (`level - 1` is an integer and exact). -/
def spawnRateOf (level : ℤ) : ℚ :=
  max 0.5 (fl (2 - fl (((level : ℚ) - 1) * fl 0.2)))

/-- Method `updateDifficulty()`. -/
def Game.updateDifficulty (g : Game) : Game :=
  let newLevel := Int.floor ((g.score : ℚ) / 500) + 1
  if newLevel ≠ g.level then
    { g with level := newLevel, enemySpawnRate := spawnRateOf newLevel }
  else g

/-- The player after the first two statements of `update`. -/
def Game.tickPlayer (env : Env) (p : Player) (g : Game) : Player :=
  Player.aimAt env (p.update g.keys g.width g.height) g.mouseX g.mouseY

/-- The part of `update` before `checkCollisions`: player, spawn timer, bullet
pass, enemy pass. `now1` and `now2` are the two readings of `Date.now()`; the
spawn test `Date.now() - this.lastEnemySpawn > this.enemySpawnRate * 1000` is in
doubles. -/
def Game.beforeCollisions (env : Env) (now1 now2 : ℚ) (p : Player) (g : Game) : Game :=
  let g1 := { g with player := some (Game.tickPlayer env p g) }
  let g2 :=
    if fl (now1 - g1.lastEnemySpawn) > fl (g1.enemySpawnRate * 1000) then
      { Game.spawnEnemy env g1 with lastEnemySpawn := now2 }
    else g1
  let g3 := { g2 with bullets := updateBullets g2.width g2.height g2.bullets }
  { g3 with enemies := updateEnemies env g3.enemies }

/-- The part of `update` after `checkCollisions`: particle pass, difficulty,
game-over check. -/
def Game.afterCollisions (g : Game) : Game :=
  let g1 := { g with particles := updateParticles g.particles }
  let g2 := g1.updateDifficulty
  if g2.lives ≤ 0 then
    { g2 with gameRunning := false, log := g2.log ++ [Event.onGameOver] }
  else g2

/-- Method `update()`. The result is `none` when the method throws: the game runs
and `this.player` is `null`. -/
def Game.update (env : Env) (now1 now2 : ℚ) (g : Game) : Option Game :=
  if !g.gameRunning then some g
  else
    match g.player with
    | none => none
    | some p =>
      let g4 := Game.beforeCollisions env now1 now2 p g
      let g5 := Game.checkCollisions env (Game.tickPlayer env p g) g4
      some g5.afterCollisions

/-! ## The listeners of `setupEventListeners`

One function for one invocation of one listener. The listener set may hold
several copies of a listener (`resizeCanvas` registers them all again); their
invocations are consecutive steps. -/

/-- Listener `keydown`. -/
def Game.keydown (g : Game) (k : KeyName) : Game :=
  { g with keys := g.keys.set k true }

/-- Listener `keyup`. -/
def Game.keyup (g : Game) (k : KeyName) : Game :=
  { g with keys := g.keys.set k false }

/-- Listener `mousemove`. -/
def Game.mousemove (g : Game) (clientX clientY : ℚ) : Game :=
  let g1 := { g with mouseX := clientX, mouseY := clientY }
  match g1.player with
  | some p =>
    if g1.isDragging && g1.gameRunning then
      { g1 with player := some { p with x := clientX, y := clientY } }
    else g1
  | none => g1

/-- Listener `mousedown`. Its test `distance < this.player.radius + 20`, with
`dx = e.clientX - this.player.x`, has the shape of `circlesOverlap`. -/
def Game.mousedown (g : Game) (clientX clientY : ℚ) : Game :=
  match g.player with
  | some p =>
    if g.gameRunning then
      if circlesOverlap clientX clientY p.radius p.x p.y 20 then
        { g with isDragging := true, dragStartX := clientX, dragStartY := clientY }
      else g
    else g
  | none => g

/-- Listeners `mouseup` and `touchend`. -/
def Game.mouseup (g : Game) : Game :=
  { g with isDragging := false }

/-- Listener `click`. -/
def Game.click (env : Env) (g : Game) : Game :=
  match g.player with
  | some p =>
    if g.gameRunning && !g.isDragging then
      { g with bullets := g.bullets ++ [Bullet.new env p.x p.y p.angle] }
    else g
  | none => g

/-- Listener `touchstart`, the first touch being at `(clientX, clientY)`. -/
def Game.touchstart (env : Env) (g : Game) (clientX clientY : ℚ) : Game :=
  let g1 := { g with mouseX := clientX, mouseY := clientY }
  match g1.player with
  | some p =>
    if g1.gameRunning then
      if circlesOverlap clientX clientY p.radius p.x p.y 20 then
        { g1 with isDragging := true, dragStartX := clientX, dragStartY := clientY }
      else { g1 with bullets := g1.bullets ++ [Bullet.new env p.x p.y p.angle] }
    else g1
  | none => g1

/-- Listener `touchmove` with at least one touch, the first at `(clientX, clientY)`. -/
def Game.touchmove (env : Env) (g : Game) (clientX clientY : ℚ) : Game :=
  let g1 := { g with mouseX := clientX, mouseY := clientY }
  match g1.player with
  | some p =>
    if g1.isDragging && g1.gameRunning then
      let p1 : Player := { p with x := clientX, y := clientY }
      { g1 with player := some (Player.aimAt env p1 g1.mouseX g1.mouseY) }
    else g1
  | none => g1

/-- Method `resizeCanvas()` on a window of the given size. -/
def Game.resizeCanvas (g : Game) (innerWidth innerHeight : ℚ) : Game :=
  { g with width := innerWidth, height := innerHeight }

/-- One invocation of one listener: `Listener g g1` when it takes `g` to `g1`. -/
inductive Listener (g : Game) : Game → Prop
  | keydown (k : KeyName) : Listener g (g.keydown k)
  | keyup (k : KeyName) : Listener g (g.keyup k)
  | mousemove (x y : ℚ) : Listener g (g.mousemove x y)
  | mousedown (x y : ℚ) : Listener g (g.mousedown x y)
  | mouseup : Listener g g.mouseup
  | click (env : Env) : Listener g (Game.click env g)
  | touchstart (env : Env) (x y : ℚ) : Listener g (Game.touchstart env g x y)
  | touchmove (env : Env) (x y : ℚ) : Listener g (Game.touchmove env g x y)
  | resizeCanvas (w h : ℚ) : Listener g (g.resizeCanvas w h)

/-- The engine states that the constructor, the control operations of the host
(`start`, `reset`), the ticks of `update` and the listeners lead to. -/
inductive Reachable : Game → Prop
  | init (w h : ℚ) : Reachable (Game.init w h)
  | start {g : Game} : Reachable g → Reachable g.start
  | reset {g : Game} : Reachable g → Reachable g.reset
  | update {g g1 : Game} (env : Env) (now1 now2 : ℚ) :
      Reachable g → Game.update env now1 now2 g = some g1 → Reachable g1
  | listener {g g1 : Game} : Reachable g → Listener g g1 → Reachable g1

/-- The states that follow `g0` when `start` is not called: `LaterWithoutStart g0 g`
when ticks of `update`, calls of `reset` and listeners lead from `g0` to `g`. -/
inductive LaterWithoutStart (g0 : Game) : Game → Prop
  | refl : LaterWithoutStart g0 g0
  | reset {g : Game} : LaterWithoutStart g0 g → LaterWithoutStart g0 g.reset
  | update {g g1 : Game} (env : Env) (now1 now2 : ℚ) :
      LaterWithoutStart g0 g → Game.update env now1 now2 g = some g1 → LaterWithoutStart g0 g1
  | listener {g g1 : Game} : LaterWithoutStart g0 g → Listener g g1 → LaterWithoutStart g0 g1

/-- The fields of the engine that neither loop of `checkCollisions` writes. -/
structure SameSession (g g1 : Game) : Prop where
  level : g1.level = g.level
  gameRunning : g1.gameRunning = g.gameRunning
  log : g1.log = g.log
  enemySpawnRate : g1.enemySpawnRate = g.enemySpawnRate
  player : g1.player = g.player

/-- The invariant of the reachable engine states. -/
structure Inv (g : Game) : Prop where
  score_nonneg : 0 ≤ g.score
  level_eq : g.level = Int.floor ((g.score : ℚ) / 500) + 1
  rate_eq : g.enemySpawnRate = spawnRateOf g.level
  points_nonneg : ∀ e ∈ g.enemies, 0 ≤ e.points
  player_of_running : g.gameRunning = true → g.player.isSome = true

/-! ## Statements of the specification, in its own words -/

/-- The removal condition of the specification for a bullet that has been updated:
`lifetime ≤ 0 OR position outside [0,bound]` on either axis. -/
def specBulletRemoved (width height : ℚ) (b : Bullet) : Prop :=
  b.life ≤ 0 ∨ b.x < 0 ∨ width < b.x ∨ b.y < 0 ∨ height < b.y

/-- The cadence of the specification: `max(0.5, 2 - (level-1)*0.2)`. -/
def specCadence (level : ℤ) : ℚ :=
  max 0.5 (2 - ((level : ℚ) - 1) * 0.2)

/-! ## Concrete data -/

/-- Library functions that return `0` throughout. -/
def env0 : Env :=
  { cos := fun _ => 0, sin := fun _ => 0, atan2 := fun _ _ => 0, random := fun _ => 0 }

/-- A bullet that reaches the left edge `x = 0` with its next update. -/
def edgeBullet : Bullet :=
  { x := 8, y := 50, vx := -8, vy := 0, radius := 3, life := 100 }

/-- A resting bullet in the middle of a 100 x 100 playfield, one update from expiry. -/
def lastFrameBullet : Bullet :=
  { x := 50, y := 50, vx := 0, vy := 0, radius := 3, life := 1 }

/-- A bullet flying right inside a 100 x 100 playfield. -/
def flyingBullet : Bullet :=
  { x := 50, y := 50, vx := 8, vy := 0, radius := 3, life := 100 }

/-- The bullet of the collision scenario: radius 3 at `(100, 100)`. -/
def scenarioBullet : Bullet :=
  { x := 100, y := 100, vx := 8, vy := 0, radius := 3, life := 100 }

/-- The enemy of the collision scenario: radius 15 at `(103, 100)`. -/
def scenarioEnemy : Enemy :=
  { x := 103, y := 100, radius := 15, health := 1, maxHealth := 1, speed := 1.8, points := 10,
    angle := 0, canvasWidth := 800, canvasHeight := 600 }

/-- An engine that has been started on an 800 x 600 window. -/
def startedGame : Game :=
  (Game.init 800 600).start

/-- The engine state in which `checkCollisions` enters its loop over the enemies,
in a tick of `update` that starts in `g` with `g.player = some p`. -/
def Game.atPlayerPass (env : Env) (now1 now2 : ℚ) (p : Player) (g : Game) : Game :=
  Game.bulletEnemyLoop env (Game.beforeCollisions env now1 now2 p g).bullets.length
    (Game.beforeCollisions env now1 now2 p g)

/-- A running engine on its last life, with one level-1 enemy on top of the player. -/
def lastLifeGame : Game :=
  { startedGame with lives := 1, enemies := [Enemy.new env0 400 520 1 800 600] }

/-- An engine that has stopped with no life left. -/
def overGame : Game :=
  { startedGame with lives := 0, gameRunning := false }

/-- A level-1 enemy as `spawnEnemy` makes it (radius 16, health 1, 10 points), at `(x, y)`
on an 800 x 600 canvas. -/
def enemyAt (x y : ℚ) : Enemy :=
  Enemy.new env0 x y 1 800 600

/-- A bullet as the `click` listener makes it, at `(x, y)`; with `env0` it does not move. -/
def bulletAt (x y : ℚ) : Bullet :=
  Bullet.new env0 x y 0

/-- A running engine with two bullets on one level-1 enemy of health 1. -/
def doubleHitGame : Game :=
  { startedGame with bullets := [bulletAt 100 100, bulletAt 101 100], enemies := [enemyAt 100 100] }

/-- A running engine with two enemies on top of the player, next to each other in
`this.enemies`. -/
def twoOverlapGame : Game :=
  { startedGame with enemies := [enemyAt 400 520, enemyAt 401 520] }

/-- The player of the rounding probe: radius 20 at `(400, 520)`. -/
def probePlayer : Player :=
  Player.new 400 520

/-- The enemy of the rounding probe, radius 16 at the doubles
`(435.48222351435743, 513.9162664031714)`: its centre is at a distance of
`35.9999999999999961...` from `(400, 520)`. -/
def probeEnemy : Enemy :=
  { x := 478817768443783/1099511627776, y := 1130113821227031/2199023255552, radius := 16, health := 1, maxHealth := 1,
    speed := 1.8, points := 10, angle := 0, canvasWidth := 800, canvasHeight := 600 }

/-- The fields of the engine that hold the canvas size and the input of the host. -/
structure SameInput (g g1 : Game) : Prop where
  width : g1.width = g.width
  height : g1.height = g.height
  keys : g1.keys = g.keys
  mouseX : g1.mouseX = g.mouseX
  mouseY : g1.mouseY = g.mouseY
  isDragging : g1.isDragging = g.isDragging
  lastEnemySpawn : g1.lastEnemySpawn = g.lastEnemySpawn

/-! ## A session of play

The host steps below lead to reachable states in which bullets hit an enemy.
Every call of `Math.atan2` in them is `atan2(0, d)` with `d ≥ 0` (the pointer is
kept on the ship, the enemy appears at half height), so every angle is 0, with
cosine 1 and sine 0; `Math.random` returns `5/7`, which is the left edge for
`spawnEnemy` and the height `5/7 * (600 * 0.7) = 300`. -/

/-- The library functions of the session. -/
def env1 : Env :=
  { cos := fun _ => 1, sin := fun _ => 0, atan2 := fun _ _ => 0, random := fun _ => 5 / 7 }

/-- One frame: `update` with the clock at `now`. -/
def tick (now : ℚ) (g : Game) : Game :=
  (Game.update env1 now now g).getD g

/-- The drag gesture: mouse down at `(x, y)`, mouse moved to `(x1, y1)`, mouse up. -/
def dragTo (g : Game) (x y x1 y1 : ℚ) : Game :=
  ((g.mousedown x y).mousemove x1 y1).mouseup

/-- The listener `click` invoked `n` times. -/
def clicks (n : ℕ) (g : Game) : Game :=
  (Game.click env1)^[n] g

/-- Forty frames with the clock at `now`: the first spawns an enemy at `(-40, 300)`, which
then flies `1.8` to the right in every frame. -/
def flyIn (now : ℚ) (g : Game) : Game :=
  (tick now)^[40] g

/-- The level-1 enemy of the session after `k` frames. -/
def flyingEnemy (k : ℕ) : Enemy :=
  { Enemy.new env1 (-40) 300 1 800 600 with x := -40 + 9 / 5 * k }

/-- The engine constructed on an 800 x 600 window and started, the pointer moved onto the
ship, an enemy spawned at clock 3000 and flown in to `x = 32`, the ship dragged
to `(25, 300)` and `n` bullets fired. -/
def volleyGame (n : ℕ) : Game :=
  clicks n (dragTo (flyIn 3000 ((Game.init 800 600).start.mousemove 400 520)) 400 520 25 300)

/-- The session continued after a volley of 48 bullets and one frame (score 480, 2 lives):
the ship dragged back to `(400, 520)`, a second enemy spawned at clock 6000 and
flown in, the ship dragged to `(25, 300)` and 4 bullets fired. -/
def scene480 : Game :=
  clicks 4 (dragTo (flyIn 6000 (dragTo (tick 3000 (volleyGame 48)) 25 300 400 520)) 400 520 25 300)

/-- A running level-1 engine of the session on the 800 x 600 canvas: no key held, the
pointer on the ship at `(px, py)`, no drag in progress. -/
structure Scene (g : Game) (score lives : ℤ) (last px py : ℚ) (bullets : List Bullet)
    (enemies : List Enemy) : Prop where
  width : g.width = 800
  height : g.height = 600
  player : g.player = some (Player.new px py)
  bullets : g.bullets = bullets
  enemies : g.enemies = enemies
  score : g.score = score
  level : g.level = 1
  lives : g.lives = lives
  running : g.gameRunning = true
  rate : g.enemySpawnRate = 2
  last : g.lastEnemySpawn = last
  keys : g.keys = Keys.released
  mouseX : g.mouseX = px
  mouseY : g.mouseY = py
  dragging : g.isDragging = false

/-! ## Theorems -/

/-! ### Helper lemmas -/

/-! #### Rounding to doubles -/

theorem roundEven_cases (x : ℚ) :
    (roundEven x = Int.floor x ∧ x - Int.floor x ≤ 1 / 2) ∨
    (roundEven x = Int.floor x + 1 ∧ 1 / 2 ≤ x - Int.floor x) := by
  unfold roundEven
  dsimp only
  split
  · left; exact ⟨rfl, by linarith⟩
  · split
    · right; exact ⟨rfl, by linarith⟩
    · have h : x - Int.floor x = 1 / 2 := by linarith
      split
      · left; exact ⟨rfl, by linarith⟩
      · right; exact ⟨rfl, by linarith⟩

theorem roundEven_err (x : ℚ) : |(roundEven x : ℚ) - x| ≤ 1 / 2 := by
  have h1 := Int.floor_le x
  have h2 := Int.lt_floor_add_one x
  rw [abs_le]
  rcases roundEven_cases x with ⟨h, h3⟩ | ⟨h, h3⟩
  · rw [h]; constructor <;> linarith
  · rw [h]; push_cast; constructor <;> linarith

theorem roundEven_eq_of (x : ℚ) (m : ℤ) (h : |x - m| < 1 / 2) : roundEven x = m := by
  rw [abs_lt] at h
  have h1 := Int.floor_le x
  have h2 := Int.lt_floor_add_one x
  rcases roundEven_cases x with ⟨hr, h3⟩ | ⟨hr, h3⟩
  · rw [hr]
    have a : ((Int.floor x : ℤ) : ℚ) < m + 1 := by linarith
    have b : (m : ℚ) < Int.floor x + 1 := by linarith
    have a' : Int.floor x < m + 1 := by exact_mod_cast a
    have b' : m < Int.floor x + 1 := by exact_mod_cast b
    omega
  · rw [hr]
    have a : ((Int.floor x : ℤ) : ℚ) + 1 < m + 1 := by linarith
    have b : (m : ℚ) < Int.floor x + 1 + 1 := by linarith
    have a' : Int.floor x + 1 < m + 1 := by exact_mod_cast a
    have b' : m < Int.floor x + 1 + 1 := by exact_mod_cast b
    omega

theorem roundEven_intCast (m : ℤ) : roundEven (m : ℚ) = m :=
  roundEven_eq_of _ m (by simp)

theorem roundEven_mono {a b : ℚ} (h : a ≤ b) : roundEven a ≤ roundEven b := by
  have hf : Int.floor a ≤ Int.floor b := Int.floor_mono h
  rcases lt_or_eq_of_le hf with hlt | heq
  · rcases roundEven_cases a with ⟨ha, _⟩ | ⟨ha, _⟩ <;>
    rcases roundEven_cases b with ⟨hb, _⟩ | ⟨hb, _⟩ <;> omega
  · unfold roundEven
    dsimp only
    rw [heq]
    have h' : a - Int.floor b ≤ b - Int.floor b := by linarith
    split_ifs <;> first | omega | (exfalso; linarith)

theorem roundEven_neg (x : ℚ) : roundEven (-x) = -roundEven x := by
  by_cases hx : (Int.floor x : ℚ) = x
  · rw [← hx, ← Int.cast_neg, roundEven_intCast, roundEven_intCast]
  · have h1 := Int.floor_le x
    have h2 := Int.lt_floor_add_one x
    have h3 : (Int.floor x : ℚ) < x := lt_of_le_of_ne h1 hx
    have hf : Int.floor (-x) = -Int.floor x - 1 := by
      rw [Int.floor_eq_iff]
      push_cast
      constructor <;> linarith
    unfold roundEven
    dsimp only
    rw [hf]
    push_cast
    have hmod : ((-Int.floor x - 1) % 2 = 0) ↔ ¬ (Int.floor x % 2 = 0) := by omega
    split_ifs <;> first | omega | (exfalso; linarith)

theorem log_two_eq (x : ℚ) (e : ℤ) (h1 : (2 : ℚ) ^ e ≤ |x|) (h2 : |x| < (2 : ℚ) ^ (e + 1)) :
    Int.log 2 |x| = e := by
  have hpos : (0 : ℚ) < |x| := lt_of_lt_of_le (by positivity) h1
  have a : e ≤ Int.log 2 |x| := by
    rw [← Int.zpow_le_iff_le_log (by norm_num) hpos]
    exact_mod_cast h1
  have b : Int.log 2 |x| < e + 1 := by
    rw [← Int.lt_zpow_iff_log_lt (by norm_num) hpos]
    exact_mod_cast h2
  omega

theorem log_two_spec (x : ℚ) (hx : x ≠ 0) :
    (2 : ℚ) ^ Int.log 2 |x| ≤ |x| ∧ |x| < (2 : ℚ) ^ (Int.log 2 |x| + 1) := by
  have hpos : (0 : ℚ) < |x| := abs_pos.mpr hx
  have h1 := Int.zpow_log_le_self (b := 2) (r := |x|) (by norm_num) hpos
  have h2 := Int.lt_zpow_succ_log_self (b := 2) (by norm_num) |x|
  exact ⟨by exact_mod_cast h1, by exact_mod_cast h2⟩

/-- Evaluation of `fl`: the exponent and the significand of the result. -/
theorem fl_eq_of (x : ℚ) (e m : ℤ) (h1 : (2 : ℚ) ^ e ≤ |x|) (h2 : |x| < (2 : ℚ) ^ (e + 1))
    (h3 : |x / 2 ^ (e - 52) - m| < 1 / 2) : fl x = m * 2 ^ (e - 52) := by
  unfold fl
  dsimp only
  rw [log_two_eq x e h1 h2, roundEven_eq_of _ m h3]

theorem fl_zero : fl 0 = 0 := by
  simp [fl, roundEven]

theorem fl_neg (x : ℚ) : fl (-x) = -fl x := by
  unfold fl
  dsimp only
  rw [abs_neg, neg_div, roundEven_neg]
  push_cast
  ring

/-- The relative error of `fl` is at most `2 ^ (-53)`. -/
theorem fl_err (x : ℚ) : |fl x - x| ≤ 2 ^ (-53 : ℤ) * |x| := by
  by_cases hx : x = 0
  · subst hx
    simp [fl_zero]
  · obtain ⟨h1, _⟩ := log_two_spec x hx
    have hu : (0 : ℚ) < 2 ^ (Int.log 2 |x| - 52) := by positivity
    have hr := roundEven_err (x / 2 ^ (Int.log 2 |x| - 52))
    have heq : fl x - x =
        ((roundEven (x / 2 ^ (Int.log 2 |x| - 52)) : ℚ) - x / 2 ^ (Int.log 2 |x| - 52)) *
          2 ^ (Int.log 2 |x| - 52) := by
      unfold fl
      dsimp only
      field_simp
    rw [heq, abs_mul, abs_of_pos hu]
    have hsplit : (2 : ℚ) ^ (Int.log 2 |x| - 52) = 2 ^ (-52 : ℤ) * 2 ^ Int.log 2 |x| := by
      rw [← zpow_add₀ (by norm_num : (2 : ℚ) ≠ 0)]
      congr 1
      ring
    have h53 : (2 : ℚ) ^ (-53 : ℤ) = 1 / 2 * 2 ^ (-52 : ℤ) := by norm_num
    rw [hsplit, h53]
    have hp : (0 : ℚ) < 2 ^ (-52 : ℤ) := by positivity
    have hq : (0 : ℚ) < 2 ^ Int.log 2 |x| := by positivity
    calc |(roundEven (x / (2 ^ (-52 : ℤ) * 2 ^ Int.log 2 |x|)) : ℚ) -
            x / (2 ^ (-52 : ℤ) * 2 ^ Int.log 2 |x|)| * (2 ^ (-52 : ℤ) * 2 ^ Int.log 2 |x|)
        ≤ 1 / 2 * (2 ^ (-52 : ℤ) * 2 ^ Int.log 2 |x|) := by
          rw [← hsplit]
          exact mul_le_mul_of_nonneg_right hr (le_of_lt hu)
      _ = 1 / 2 * 2 ^ (-52 : ℤ) * 2 ^ Int.log 2 |x| := by ring
      _ ≤ 1 / 2 * 2 ^ (-52 : ℤ) * |x| := by
          apply mul_le_mul_of_nonneg_left h1
          positivity

theorem fl_bounds_of_nonneg (x : ℚ) (hx : 0 ≤ x) :
    (1 - 2 ^ (-53 : ℤ)) * x ≤ fl x ∧ fl x ≤ (1 + 2 ^ (-53 : ℤ)) * x := by
  have h := fl_err x
  rw [abs_of_nonneg hx, abs_le] at h
  constructor <;> linarith [h.1, h.2]

theorem fl_nonneg (x : ℚ) (hx : 0 ≤ x) : 0 ≤ fl x := by
  have h := (fl_bounds_of_nonneg x hx).1
  have : (0 : ℚ) ≤ (1 - 2 ^ (-53 : ℤ)) * x := mul_nonneg (by norm_num) hx
  linarith

theorem fl_pos (x : ℚ) (hx : 0 < x) : 0 < fl x := by
  have h := (fl_bounds_of_nonneg x (le_of_lt hx)).1
  have : (0 : ℚ) < (1 - 2 ^ (-53 : ℤ)) * x := mul_pos (by norm_num) hx
  linarith

theorem fl_nonpos (x : ℚ) (hx : x ≤ 0) : fl x ≤ 0 := by
  have h := fl_nonneg (-x) (by linarith)
  rw [fl_neg] at h
  linarith

/-- The square of `fl x` against the square of `x`. -/
theorem fl_sq_bounds (x : ℚ) :
    (1 - 2 ^ (-53 : ℤ)) ^ 2 * (x * x) ≤ fl x * fl x ∧
      fl x * fl x ≤ (1 + 2 ^ (-53 : ℤ)) ^ 2 * (x * x) := by
  have key : ∀ z : ℚ, 0 ≤ z →
      (1 - 2 ^ (-53 : ℤ)) ^ 2 * (z * z) ≤ fl z * fl z ∧
        fl z * fl z ≤ (1 + 2 ^ (-53 : ℤ)) ^ 2 * (z * z) := by
    intro z hz
    obtain ⟨h1, h2⟩ := fl_bounds_of_nonneg z hz
    have h0 : (0 : ℚ) ≤ (1 - 2 ^ (-53 : ℤ)) * z := mul_nonneg (by norm_num) hz
    have hf := fl_nonneg z hz
    constructor
    · nlinarith [mul_le_mul h1 h1 h0 hf]
    · nlinarith [mul_le_mul h2 h2 hf (by linarith : (0 : ℚ) ≤ (1 + 2 ^ (-53 : ℤ)) * z)]
  rcases le_total 0 x with hx | hx
  · exact key x hx
  · have h := key (-x) (by linarith)
    rw [fl_neg] at h
    simpa using h

theorem sqrtRound_spec (y : ℚ) (hy : 1 ≤ y) :
    ((Nat.sqrt (Nat.floor y) : ℕ) : ℤ) ≤ sqrtRound y ∧
    ((sqrtRound y : ℚ) - 1 / 2) ^ 2 ≤ y ∧ y ≤ ((sqrtRound y : ℚ) + 1 / 2) ^ 2 := by
  have hy0 : (0 : ℚ) ≤ y := by linarith
  have hn1 : ((Nat.floor y : ℕ) : ℚ) ≤ y := Nat.floor_le hy0
  have hn2 : y < (Nat.floor y : ℕ) + 1 := Nat.lt_floor_add_one y
  have hs1 := Nat.sqrt_le (Nat.floor y)
  have hs2 := Nat.lt_succ_sqrt (Nat.floor y)
  have hn0 : 1 ≤ Nat.floor y := Nat.le_floor (by exact_mod_cast hy)
  have hs0 : 1 ≤ Nat.sqrt (Nat.floor y) := Nat.le_sqrt.mpr (by simpa using hn0)
  have q1 : ((Nat.sqrt (Nat.floor y) : ℕ) : ℚ) * (Nat.sqrt (Nat.floor y) : ℕ) ≤ y := by
    have : ((Nat.sqrt (Nat.floor y) * Nat.sqrt (Nat.floor y) : ℕ) : ℚ) ≤ (Nat.floor y : ℕ) := by
      exact_mod_cast hs1
    push_cast at this
    linarith
  have q2 : y < ((Nat.sqrt (Nat.floor y) : ℕ) + 1 : ℚ) * ((Nat.sqrt (Nat.floor y) : ℕ) + 1) := by
    have : ((Nat.floor y + 1 : ℕ) : ℚ) ≤
        ((Nat.succ (Nat.sqrt (Nat.floor y)) * Nat.succ (Nat.sqrt (Nat.floor y)) : ℕ) : ℚ) := by
      exact_mod_cast hs2
    push_cast at this
    linarith
  have q0 : (1 : ℚ) ≤ (Nat.sqrt (Nat.floor y) : ℕ) := by exact_mod_cast hs0
  unfold sqrtRound
  dsimp only
  push_cast
  split_ifs with c1 c2 c3
  · refine ⟨le_refl _, ?_, le_of_lt c1⟩
    nlinarith
  · refine ⟨by omega, ?_, ?_⟩
    · nlinarith
    · nlinarith
  · refine ⟨le_refl _, ?_, ?_⟩
    · nlinarith
    · linarith
  · refine ⟨by omega, ?_, ?_⟩
    · nlinarith
    · nlinarith

theorem sqrtRound_eq_of (y : ℚ) (m : ℤ) (hm : 1 ≤ m) (h1 : ((m : ℚ) - 1 / 2) ^ 2 < y)
    (h2 : y < ((m : ℚ) + 1 / 2) ^ 2) : sqrtRound y = m := by
  have hm' : (1 : ℚ) ≤ m := by exact_mod_cast hm
  have hy0 : (0 : ℚ) ≤ y := by nlinarith
  have hn1 : ((Nat.floor y : ℕ) : ℚ) ≤ y := Nat.floor_le hy0
  have hn2 : y < (Nat.floor y : ℕ) + 1 := Nat.lt_floor_add_one y
  have hs1 := Nat.sqrt_le (Nat.floor y)
  have hs2 := Nat.lt_succ_sqrt (Nat.floor y)
  have q1 : ((Nat.sqrt (Nat.floor y) : ℕ) : ℚ) * (Nat.sqrt (Nat.floor y) : ℕ) ≤ y := by
    have : ((Nat.sqrt (Nat.floor y) * Nat.sqrt (Nat.floor y) : ℕ) : ℚ) ≤ (Nat.floor y : ℕ) := by
      exact_mod_cast hs1
    push_cast at this
    linarith
  have q2 : y < ((Nat.sqrt (Nat.floor y) : ℕ) + 1 : ℚ) * ((Nat.sqrt (Nat.floor y) : ℕ) + 1) := by
    have : ((Nat.floor y + 1 : ℕ) : ℚ) ≤
        ((Nat.succ (Nat.sqrt (Nat.floor y)) * Nat.succ (Nat.sqrt (Nat.floor y)) : ℕ) : ℚ) := by
      exact_mod_cast hs2
    push_cast at this
    linarith
  have q0 : (0 : ℚ) ≤ (Nat.sqrt (Nat.floor y) : ℕ) := Nat.cast_nonneg _
  -- the integer square root is `m - 1` or `m`
  have a : ((Nat.sqrt (Nat.floor y) : ℕ) : ℚ) < m + 1 / 2 := by nlinarith
  have b : (m : ℚ) - 1 / 2 < (Nat.sqrt (Nat.floor y) : ℕ) + 1 := by nlinarith
  have a' : ((Nat.sqrt (Nat.floor y) : ℕ) : ℤ) ≤ m := by
    have : ((Nat.sqrt (Nat.floor y) : ℕ) : ℚ) < ((m + 1 : ℤ) : ℚ) := by push_cast; linarith
    have := Int.cast_lt.mp (by exact_mod_cast this : (((Nat.sqrt (Nat.floor y) : ℕ) : ℤ) : ℚ) < ((m + 1 : ℤ) : ℚ))
    omega
  have b' : m ≤ ((Nat.sqrt (Nat.floor y) : ℕ) : ℤ) + 1 := by
    have : ((m : ℤ) : ℚ) < (((Nat.sqrt (Nat.floor y) : ℕ) : ℤ) + 2 : ℤ) := by push_cast; linarith
    have := Int.cast_lt.mp this
    omega
  unfold sqrtRound
  dsimp only
  rcases (by omega : ((Nat.sqrt (Nat.floor y) : ℕ) : ℤ) = m ∨
      ((Nat.sqrt (Nat.floor y) : ℕ) : ℤ) = m - 1) with h | h
  · rw [h, if_pos h2]
  · rw [h]
    have e1 : (((m - 1 : ℤ) : ℚ) + 1 / 2) = (m : ℚ) - 1 / 2 := by push_cast; ring
    rw [e1, if_neg (by linarith), if_pos h1]
    ring

theorem log_four_spec (x : ℚ) (hx : 0 < x) :
    (4 : ℚ) ^ Int.log 4 x ≤ x ∧ x < (4 : ℚ) ^ (Int.log 4 x + 1) := by
  have h1 := Int.zpow_log_le_self (b := 4) (r := x) (by norm_num) hx
  have h2 := Int.lt_zpow_succ_log_self (b := 4) (by norm_num) x
  exact ⟨by exact_mod_cast h1, by exact_mod_cast h2⟩

theorem log_four_eq (x : ℚ) (h : ℤ) (h1 : (4 : ℚ) ^ h ≤ x) (h2 : x < (4 : ℚ) ^ (h + 1)) :
    Int.log 4 x = h := by
  have hpos : (0 : ℚ) < x := lt_of_lt_of_le (by positivity) h1
  have a : h ≤ Int.log 4 x := by
    rw [← Int.zpow_le_iff_le_log (by norm_num) hpos]
    exact_mod_cast h1
  have b : Int.log 4 x < h + 1 := by
    rw [← Int.lt_zpow_iff_log_lt (by norm_num) hpos]
    exact_mod_cast h2
  omega

theorem two_zpow_sq (k : ℤ) : (2 : ℚ) ^ (k - 52) * 2 ^ (k - 52) = 4 ^ k / 4 ^ (52 : ℤ) := by
  have h4 : (4 : ℚ) = 2 ^ (2 : ℤ) := by norm_num
  rw [h4, ← zpow_mul, ← zpow_mul, ← zpow_add₀ (by norm_num : (2 : ℚ) ≠ 0),
    ← zpow_sub₀ (by norm_num : (2 : ℚ) ≠ 0)]
  congr 1
  ring

/-- Evaluation of `fsqrt`: the exponent and the significand of the result. -/
theorem fsqrt_eq_of (x : ℚ) (h m : ℤ) (h1 : (4 : ℚ) ^ h ≤ x) (h2 : x < (4 : ℚ) ^ (h + 1))
    (hm : 1 ≤ m) (h3 : ((m : ℚ) - 1 / 2) ^ 2 < x / (2 ^ (h - 52) * 2 ^ (h - 52)))
    (h4 : x / (2 ^ (h - 52) * 2 ^ (h - 52)) < ((m : ℚ) + 1 / 2) ^ 2) :
    fsqrt x = m * 2 ^ (h - 52) := by
  have hpos : (0 : ℚ) < x := lt_of_lt_of_le (by positivity) h1
  unfold fsqrt
  rw [if_neg (not_le.mpr hpos)]
  dsimp only
  rw [log_four_eq x h h1 h2, sqrtRound_eq_of _ m hm h3 h4]

theorem fsqrt_of_nonpos (x : ℚ) (hx : x ≤ 0) : fsqrt x = 0 := by
  unfold fsqrt
  rw [if_pos hx]

/-- The relative error of `fsqrt` is at most `2 ^ (-53)`, in squares. -/
theorem fsqrt_bounds (x : ℚ) (hx : 0 < x) :
    0 < fsqrt x ∧ ((1 - 2 ^ (-53 : ℤ)) * fsqrt x) ^ 2 ≤ x ∧
      x ≤ ((1 + 2 ^ (-53 : ℤ)) * fsqrt x) ^ 2 := by
  obtain ⟨l1, _⟩ := log_four_spec x hx
  have hu : (0 : ℚ) < 2 ^ (Int.log 4 x - 52) := by positivity
  have huu : (0 : ℚ) < 2 ^ (Int.log 4 x - 52) * 2 ^ (Int.log 4 x - 52) := mul_pos hu hu
  have hy : (4 : ℚ) ^ (52 : ℤ) ≤ x / (2 ^ (Int.log 4 x - 52) * 2 ^ (Int.log 4 x - 52)) := by
    rw [le_div_iff₀ huu, two_zpow_sq]
    have h4 : (0 : ℚ) < 4 ^ (52 : ℤ) := by positivity
    rw [mul_div_cancel₀ _ (ne_of_gt h4)]
    exact l1
  have hy1 : (1 : ℚ) ≤ x / (2 ^ (Int.log 4 x - 52) * 2 ^ (Int.log 4 x - 52)) :=
    le_trans (by norm_num) hy
  obtain ⟨s1, s2, s3⟩ := sqrtRound_spec _ hy1
  have hfl : (2 : ℕ) ^ 104 ≤
      Nat.floor (x / (2 ^ (Int.log 4 x - 52) * 2 ^ (Int.log 4 x - 52))) := by
    apply Nat.le_floor
    have : ((4 : ℚ) ^ (52 : ℤ)) = (((2 : ℕ) ^ 104 : ℕ) : ℚ) := by norm_num
    rw [← this]
    exact hy
  have hsq : (2 : ℕ) ^ 52 ≤
      Nat.sqrt (Nat.floor (x / (2 ^ (Int.log 4 x - 52) * 2 ^ (Int.log 4 x - 52)))) := by
    rw [Nat.le_sqrt]
    calc (2 : ℕ) ^ 52 * 2 ^ 52 = 2 ^ 104 := by norm_num
      _ ≤ _ := hfl
  have hm : ((2 : ℤ) ^ 52) ≤
      sqrtRound (x / (2 ^ (Int.log 4 x - 52) * 2 ^ (Int.log 4 x - 52))) := by
    refine le_trans ?_ s1
    exact_mod_cast hsq
  have hmq : ((2 : ℚ) ^ 52) ≤
      (sqrtRound (x / (2 ^ (Int.log 4 x - 52) * 2 ^ (Int.log 4 x - 52))) : ℚ) := by
    exact_mod_cast hm
  have hfs : fsqrt x =
      (sqrtRound (x / (2 ^ (Int.log 4 x - 52) * 2 ^ (Int.log 4 x - 52))) : ℚ) *
        2 ^ (Int.log 4 x - 52) := by
    unfold fsqrt
    rw [if_neg (not_le.mpr hx)]
  generalize hM : (sqrtRound (x / (2 ^ (Int.log 4 x - 52) * 2 ^ (Int.log 4 x - 52))) : ℚ) = M
    at s2 s3 hmq hfs
  generalize hU : (2 : ℚ) ^ (Int.log 4 x - 52) = U at hu huu s2 s3 hfs
  have hx' : x = x / (U * U) * (U * U) := by field_simp
  generalize hY : x / (U * U) = Y at s2 s3 hx'
  have hhalf : (1 : ℚ) / 2 ≤ M * 2 ^ (-53 : ℤ) := by
    have h0 : (2 : ℚ) ^ 52 * 2 ^ (-53 : ℤ) = 1 / 2 := by norm_num
    rw [← h0]
    exact mul_le_mul_of_nonneg_right hmq (by positivity)
  have hM1 : (1 - 2 ^ (-53 : ℤ)) * M ≤ M - 1 / 2 := by linarith
  have hM2 : M + 1 / 2 ≤ (1 + 2 ^ (-53 : ℤ)) * M := by linarith
  have hMpos : (0 : ℚ) < M := lt_of_lt_of_le (by norm_num) hmq
  have hM0 : (0 : ℚ) ≤ (1 - 2 ^ (-53 : ℤ)) * M := mul_nonneg (by norm_num) (le_of_lt hMpos)
  have a1 : ((1 - 2 ^ (-53 : ℤ)) * M) ^ 2 ≤ Y :=
    le_trans (pow_le_pow_left₀ hM0 hM1 2) s2
  have a2 : Y ≤ ((1 + 2 ^ (-53 : ℤ)) * M) ^ 2 :=
    le_trans s3 (pow_le_pow_left₀ (by linarith) hM2 2)
  rw [hfs]
  refine ⟨mul_pos hMpos hu, ?_, ?_⟩
  · rw [hx']
    calc ((1 - 2 ^ (-53 : ℤ)) * (M * U)) ^ 2 = ((1 - 2 ^ (-53 : ℤ)) * M) ^ 2 * (U * U) := by ring
      _ ≤ Y * (U * U) := mul_le_mul_of_nonneg_right a1 (le_of_lt huu)
  · rw [hx']
    calc Y * (U * U) ≤ ((1 + 2 ^ (-53 : ℤ)) * M) ^ 2 * (U * U) :=
          mul_le_mul_of_nonneg_right a2 (le_of_lt huu)
      _ = ((1 + 2 ^ (-53 : ℤ)) * (M * U)) ^ 2 := by ring

theorem fsqrt_nonneg (x : ℚ) : 0 ≤ fsqrt x := by
  rcases le_or_lt x 0 with h | h
  · rw [fsqrt_of_nonpos x h]
  · exact le_of_lt (fsqrt_bounds x h).1

theorem sumsq_chain (a b p q P Q X Y S : ℚ) (ha : 0 ≤ a) (hb : 0 ≤ b)
    (hP : a ^ 2 * p ≤ P ∧ P ≤ b ^ 2 * p) (hQ : a ^ 2 * q ≤ Q ∧ Q ≤ b ^ 2 * q)
    (hX : a * P ≤ X ∧ X ≤ b * P) (hY : a * Q ≤ Y ∧ Y ≤ b * Q)
    (hS : a * (X + Y) ≤ S ∧ S ≤ b * (X + Y)) :
    a ^ 4 * (p + q) ≤ S ∧ S ≤ b ^ 4 * (p + q) := by
  constructor
  · have h1 : a * (a ^ 2 * p) ≤ a * P := mul_le_mul_of_nonneg_left hP.1 ha
    have h2 : a * (a ^ 2 * q) ≤ a * Q := mul_le_mul_of_nonneg_left hQ.1 ha
    have h3 : a * (a * (a ^ 2 * p) + a * (a ^ 2 * q)) ≤ a * (X + Y) :=
      mul_le_mul_of_nonneg_left (by linarith [hX.1, hY.1]) ha
    calc a ^ 4 * (p + q) = a * (a * (a ^ 2 * p) + a * (a ^ 2 * q)) := by ring
      _ ≤ a * (X + Y) := h3
      _ ≤ S := hS.1
  · have h1 : b * P ≤ b * (b ^ 2 * p) := mul_le_mul_of_nonneg_left hP.2 hb
    have h2 : b * Q ≤ b * (b ^ 2 * q) := mul_le_mul_of_nonneg_left hQ.2 hb
    have h3 : b * (X + Y) ≤ b * (b * (b ^ 2 * p) + b * (b ^ 2 * q)) :=
      mul_le_mul_of_nonneg_left (by linarith [hX.2, hY.2]) hb
    calc S ≤ b * (X + Y) := hS.2
      _ ≤ b * (b * (b ^ 2 * p) + b * (b ^ 2 * q)) := h3
      _ = b ^ 4 * (p + q) := by ring

/-- The rounded sum of squares against the exact one. -/
theorem fl_sumsq_bounds (dx dy : ℚ) :
    (1 - 2 ^ (-53 : ℤ)) ^ 4 * (dx * dx + dy * dy) ≤
        fl (fl (fl dx * fl dx) + fl (fl dy * fl dy)) ∧
      fl (fl (fl dx * fl dx) + fl (fl dy * fl dy)) ≤
        (1 + 2 ^ (-53 : ℤ)) ^ 4 * (dx * dx + dy * dy) := by
  have hA : 0 ≤ fl dx * fl dx := mul_self_nonneg _
  have hB : 0 ≤ fl dy * fl dy := mul_self_nonneg _
  exact sumsq_chain _ _ _ _ _ _ _ _ _ (by norm_num) (by norm_num) (fl_sq_bounds dx)
    (fl_sq_bounds dy) (fl_bounds_of_nonneg _ hA) (fl_bounds_of_nonneg _ hB)
    (fl_bounds_of_nonneg _ (add_nonneg (fl_nonneg _ hA) (fl_nonneg _ hB)))

theorem circlesOverlap_comm (x y r ex ey er : ℚ) :
    circlesOverlap x y r ex ey er = circlesOverlap ex ey er x y r := by
  unfold circlesOverlap
  dsimp only
  have h1 : fl (ex - x) = -fl (x - ex) := by rw [← fl_neg]; congr 1; ring
  have h2 : fl (ey - y) = -fl (y - ey) := by rw [← fl_neg]; congr 1; ring
  rw [h1, h2, neg_mul_neg, neg_mul_neg, add_comm er r]

/-- The rounded test is true when the exact distance is below the sum of the radii by a
factor `1 - 2 ^ (-50)`. -/
theorem circlesOverlap_of_lt (x y r ex ey er : ℚ) (hs : 0 < r + er)
    (hd : (x - ex) * (x - ex) + (y - ey) * (y - ey) ≤ ((1 - 2 ^ (-50 : ℤ)) * (r + er)) ^ 2) :
    circlesOverlap x y r ex ey er = true := by
  unfold circlesOverlap
  dsimp only
  rw [decide_eq_true_eq]
  have hS := fl_sumsq_bounds (x - ex) (y - ey)
  have hrs := (fl_bounds_of_nonneg (r + er) (le_of_lt hs)).1
  generalize fl (fl (fl (x - ex) * fl (x - ex)) + fl (fl (y - ey) * fl (y - ey))) = S at hS
  generalize fl (r + er) = rs at hrs
  generalize (x - ex) * (x - ex) + (y - ey) * (y - ey) = d2 at hS hd
  generalize r + er = s at hs hd hrs
  rcases le_or_lt S 0 with h0 | h0
  · rw [fsqrt_of_nonpos S h0]
    have : (0 : ℚ) < (1 - 2 ^ (-53 : ℤ)) * s := mul_pos (by norm_num) hs
    linarith
  · obtain ⟨hr0, hr1, _⟩ := fsqrt_bounds S h0
    generalize fsqrt S = t at hr0 hr1
    by_contra hcon
    push_neg at hcon
    have e1 : (1 - 2 ^ (-53 : ℤ)) * s ≤ t := le_trans hrs hcon
    have e0 : (0 : ℚ) ≤ (1 - 2 ^ (-53 : ℤ)) * s := mul_nonneg (by norm_num) (le_of_lt hs)
    have e2 : (1 - 2 ^ (-53 : ℤ)) * ((1 - 2 ^ (-53 : ℤ)) * s) ≤ (1 - 2 ^ (-53 : ℤ)) * t :=
      mul_le_mul_of_nonneg_left e1 (by norm_num)
    have e3 : ((1 - 2 ^ (-53 : ℤ)) * ((1 - 2 ^ (-53 : ℤ)) * s)) ^ 2 ≤
        ((1 - 2 ^ (-53 : ℤ)) * t) ^ 2 :=
      pow_le_pow_left₀ (mul_nonneg (by norm_num) e0) e2 2
    have e4 : ((1 - 2 ^ (-53 : ℤ)) * ((1 - 2 ^ (-53 : ℤ)) * s)) ^ 2 ≤
        (1 + 2 ^ (-53 : ℤ)) ^ 4 * ((1 - 2 ^ (-50 : ℤ)) * s) ^ 2 := by
      refine le_trans e3 (le_trans hr1 (le_trans hS.2 ?_))
      exact mul_le_mul_of_nonneg_left hd (by positivity)
    have e5 : (0 : ℚ) < s ^ 2 := by positivity
    have e6 : ((1 - 2 ^ (-53 : ℤ)) * ((1 - 2 ^ (-53 : ℤ)) * s)) ^ 2 =
        ((1 - 2 ^ (-53 : ℤ)) ^ 4) * s ^ 2 := by ring
    have e7 : (1 + 2 ^ (-53 : ℤ)) ^ 4 * ((1 - 2 ^ (-50 : ℤ)) * s) ^ 2 =
        ((1 + 2 ^ (-53 : ℤ)) ^ 4 * (1 - 2 ^ (-50 : ℤ)) ^ 2) * s ^ 2 := by ring
    rw [e6, e7] at e4
    have e8 : (1 - 2 ^ (-53 : ℤ) : ℚ) ^ 4 ≤ (1 + 2 ^ (-53 : ℤ)) ^ 4 * (1 - 2 ^ (-50 : ℤ)) ^ 2 :=
      le_of_mul_le_mul_right e4 e5
    norm_num at e8

/-- The rounded test is false when the sum of the radii is not positive, and when the
exact distance is above the sum of the radii by a factor `1 + 2 ^ (-50)`. -/
theorem circlesOverlap_of_ge (x y r ex ey er : ℚ)
    (hd : r + er ≤ 0 ∨
      ((1 + 2 ^ (-50 : ℤ)) * (r + er)) ^ 2 ≤ (x - ex) * (x - ex) + (y - ey) * (y - ey)) :
    circlesOverlap x y r ex ey er = false := by
  unfold circlesOverlap
  dsimp only
  rw [decide_eq_false_iff_not, not_lt]
  rcases le_or_lt (r + er) 0 with hs | hs
  · exact le_trans (fl_nonpos _ hs) (fsqrt_nonneg _)
  · rcases hd with hd | hd
    · exact absurd hd (not_le.mpr hs)
    have hS := fl_sumsq_bounds (x - ex) (y - ey)
    have hrs := (fl_bounds_of_nonneg (r + er) (le_of_lt hs)).2
    generalize fl (fl (fl (x - ex) * fl (x - ex)) + fl (fl (y - ey) * fl (y - ey))) = S at hS
    generalize fl (r + er) = rs at hrs
    generalize (x - ex) * (x - ex) + (y - ey) * (y - ey) = d2 at hS hd
    generalize r + er = s at hs hd hrs
    have hd0 : (0 : ℚ) < ((1 + 2 ^ (-50 : ℤ)) * s) ^ 2 := by positivity
    have h0 : 0 < S := by
      have : (0 : ℚ) < (1 - 2 ^ (-53 : ℤ)) ^ 4 * d2 :=
        mul_pos (by norm_num) (lt_of_lt_of_le hd0 hd)
      linarith [hS.1]
    obtain ⟨hr0, _, hr2⟩ := fsqrt_bounds S h0
    generalize fsqrt S = t at hr0 hr2
    by_contra hcon
    push_neg at hcon
    have e1 : t < (1 + 2 ^ (-53 : ℤ)) * s := lt_of_lt_of_le hcon hrs
    have e2 : (1 + 2 ^ (-53 : ℤ)) * t < (1 + 2 ^ (-53 : ℤ)) * ((1 + 2 ^ (-53 : ℤ)) * s) :=
      mul_lt_mul_of_pos_left e1 (by norm_num)
    have e3 : ((1 + 2 ^ (-53 : ℤ)) * t) ^ 2 <
        ((1 + 2 ^ (-53 : ℤ)) * ((1 + 2 ^ (-53 : ℤ)) * s)) ^ 2 :=
      pow_lt_pow_left₀ e2 (mul_nonneg (by norm_num) (le_of_lt hr0)) (by norm_num)
    have e4 : (1 - 2 ^ (-53 : ℤ)) ^ 4 * ((1 + 2 ^ (-50 : ℤ)) * s) ^ 2 <
        ((1 + 2 ^ (-53 : ℤ)) * ((1 + 2 ^ (-53 : ℤ)) * s)) ^ 2 := by
      refine lt_of_le_of_lt ?_ (lt_of_le_of_lt (le_trans hS.1 hr2) e3)
      exact mul_le_mul_of_nonneg_left hd (by norm_num)
    have e5 : (0 : ℚ) < s ^ 2 := by positivity
    have e6 : (1 - 2 ^ (-53 : ℤ)) ^ 4 * ((1 + 2 ^ (-50 : ℤ)) * s) ^ 2 =
        ((1 - 2 ^ (-53 : ℤ)) ^ 4 * (1 + 2 ^ (-50 : ℤ)) ^ 2) * s ^ 2 := by ring
    have e7 : ((1 + 2 ^ (-53 : ℤ)) * ((1 + 2 ^ (-53 : ℤ)) * s)) ^ 2 =
        ((1 + 2 ^ (-53 : ℤ)) ^ 4) * s ^ 2 := by ring
    rw [e6, e7] at e4
    have e8 : (1 - 2 ^ (-53 : ℤ) : ℚ) ^ 4 * (1 + 2 ^ (-50 : ℤ)) ^ 2 < (1 + 2 ^ (-53 : ℤ)) ^ 4 :=
      lt_of_mul_lt_mul_right e4 (le_of_lt e5)
    norm_num at e8

theorem roundEven_half_even (m : ℤ) (hm : m % 2 = 0) : roundEven ((m : ℚ) + 1 / 2) = m := by
  have hf : Int.floor ((m : ℚ) + 1 / 2) = m := by
    rw [Int.floor_eq_iff]
    constructor <;> linarith
  unfold roundEven
  dsimp only
  rw [hf]
  have e : (m : ℚ) + 1 / 2 - m = 1 / 2 := by ring
  rw [e, if_neg (lt_irrefl _), if_neg (lt_irrefl _), if_pos hm]

theorem roundEven_half_odd (m : ℤ) (hm : m % 2 = 1) : roundEven ((m : ℚ) + 1 / 2) = m + 1 := by
  have hf : Int.floor ((m : ℚ) + 1 / 2) = m := by
    rw [Int.floor_eq_iff]
    constructor <;> linarith
  unfold roundEven
  dsimp only
  rw [hf]
  have e : (m : ℚ) + 1 / 2 - m = 1 / 2 := by ring
  rw [e, if_neg (lt_irrefl _), if_neg (lt_irrefl _), if_neg (by omega)]

/-- Evaluation of `fl` at a positive number: the exponent and the rounded significand. -/
theorem fl_eq_pos (x : ℚ) (e m : ℤ) (hx : 0 < x) (h1 : (2 : ℚ) ^ e ≤ x)
    (h2 : x < (2 : ℚ) ^ (e + 1)) (h3 : roundEven (x / 2 ^ (e - 52)) = m) :
    fl x = m * 2 ^ (e - 52) := by
  have a1 : (2 : ℚ) ^ e ≤ |x| := by rw [abs_of_pos hx]; exact h1
  have a2 : |x| < (2 : ℚ) ^ (e + 1) := by rw [abs_of_pos hx]; exact h2
  unfold fl
  dsimp only
  rw [log_two_eq x e a1 a2, h3]

/-! #### The spawn cadence in doubles -/

theorem fl_lit_02 : fl (0.2) = 3602879701896397/18014398509481984 := by
  rw [fl_eq_pos (0.2) (-3) 7205759403792794 (by norm_num) (by norm_num) (by norm_num)
    (roundEven_eq_of _ 7205759403792794 (by rw [abs_lt]; constructor <;> norm_num))]
  norm_num

theorem fl_mul_02_1 : fl (1 * (3602879701896397/18014398509481984)) = 3602879701896397/18014398509481984 := by
  rw [fl_eq_pos (1 * (3602879701896397/18014398509481984)) (-3) 7205759403792794 (by norm_num) (by norm_num) (by norm_num)
    (roundEven_eq_of _ 7205759403792794 (by rw [abs_lt]; constructor <;> norm_num))]
  norm_num

theorem fl_two_sub_1 : fl (2 - 3602879701896397/18014398509481984) = 8106479329266893/4503599627370496 := by
  rw [fl_eq_pos (2 - 3602879701896397/18014398509481984) (0) 8106479329266893 (by norm_num) (by norm_num) (by norm_num)
    (roundEven_eq_of _ 8106479329266893 (by rw [abs_lt]; constructor <;> norm_num))]
  norm_num

theorem fl_mul_02_2 : fl (2 * (3602879701896397/18014398509481984)) = 3602879701896397/9007199254740992 := by
  rw [fl_eq_pos (2 * (3602879701896397/18014398509481984)) (-2) 7205759403792794 (by norm_num) (by norm_num) (by norm_num)
    (roundEven_eq_of _ 7205759403792794 (by rw [abs_lt]; constructor <;> norm_num))]
  norm_num

theorem fl_two_sub_2 : fl (2 - 3602879701896397/9007199254740992) = 3602879701896397/2251799813685248 := by
  rw [fl_eq_pos (2 - 3602879701896397/9007199254740992) (0) 7205759403792794 (by norm_num) (by norm_num) (by norm_num)
    (by
      rw [show ((2 - 3602879701896397/9007199254740992) : ℚ) / 2 ^ ((0) - 52 : ℤ) = ((7205759403792793 : ℤ) : ℚ) + 1 / 2 from by norm_num]
      exact roundEven_half_odd 7205759403792793 (by decide))]
  norm_num

theorem fl_mul_02_3 : fl (3 * (3602879701896397/18014398509481984)) = 1351079888211149/2251799813685248 := by
  rw [fl_eq_pos (3 * (3602879701896397/18014398509481984)) (-1) 5404319552844596 (by norm_num) (by norm_num) (by norm_num)
    (by
      rw [show ((3 * (3602879701896397/18014398509481984)) : ℚ) / 2 ^ ((-1) - 52 : ℤ) = ((5404319552844595 : ℤ) : ℚ) + 1 / 2 from by norm_num]
      exact roundEven_half_odd 5404319552844595 (by decide))]
  norm_num

theorem fl_two_sub_3 : fl (2 - 1351079888211149/2251799813685248) = 3152519739159347/2251799813685248 := by
  rw [fl_eq_pos (2 - 1351079888211149/2251799813685248) (0) 6305039478318694 (by norm_num) (by norm_num) (by norm_num)
    (roundEven_eq_of _ 6305039478318694 (by rw [abs_lt]; constructor <;> norm_num))]
  norm_num

theorem fl_mul_02_4 : fl (4 * (3602879701896397/18014398509481984)) = 3602879701896397/4503599627370496 := by
  rw [fl_eq_pos (4 * (3602879701896397/18014398509481984)) (-1) 7205759403792794 (by norm_num) (by norm_num) (by norm_num)
    (roundEven_eq_of _ 7205759403792794 (by rw [abs_lt]; constructor <;> norm_num))]
  norm_num

theorem fl_two_sub_4 : fl (2 - 3602879701896397/4503599627370496) = 5404319552844595/4503599627370496 := by
  rw [fl_eq_pos (2 - 3602879701896397/4503599627370496) (0) 5404319552844595 (by norm_num) (by norm_num) (by norm_num)
    (roundEven_eq_of _ 5404319552844595 (by rw [abs_lt]; constructor <;> norm_num))]
  norm_num

theorem fl_mul_02_5 : fl (5 * (3602879701896397/18014398509481984)) = 1 := by
  rw [fl_eq_pos (5 * (3602879701896397/18014398509481984)) (0) 4503599627370496 (by norm_num) (by norm_num) (by norm_num)
    (roundEven_eq_of _ 4503599627370496 (by rw [abs_lt]; constructor <;> norm_num))]
  norm_num

theorem fl_two_sub_5 : fl (2 - 1) = 1 := by
  rw [fl_eq_pos (2 - 1) (0) 4503599627370496 (by norm_num) (by norm_num) (by norm_num)
    (roundEven_eq_of _ 4503599627370496 (by rw [abs_lt]; constructor <;> norm_num))]
  norm_num

theorem fl_mul_02_6 : fl (6 * (3602879701896397/18014398509481984)) = 1351079888211149/1125899906842624 := by
  rw [fl_eq_pos (6 * (3602879701896397/18014398509481984)) (0) 5404319552844596 (by norm_num) (by norm_num) (by norm_num)
    (by
      rw [show ((6 * (3602879701896397/18014398509481984)) : ℚ) / 2 ^ ((0) - 52 : ℤ) = ((5404319552844595 : ℤ) : ℚ) + 1 / 2 from by norm_num]
      exact roundEven_half_odd 5404319552844595 (by decide))]
  norm_num

theorem fl_two_sub_6 : fl (2 - 1351079888211149/1125899906842624) = 900719925474099/1125899906842624 := by
  rw [fl_eq_pos (2 - 1351079888211149/1125899906842624) (-1) 7205759403792792 (by norm_num) (by norm_num) (by norm_num)
    (roundEven_eq_of _ 7205759403792792 (by rw [abs_lt]; constructor <;> norm_num))]
  norm_num

theorem fl_mul_02_7 : fl (7 * (3602879701896397/18014398509481984)) = 6305039478318695/4503599627370496 := by
  rw [fl_eq_pos (7 * (3602879701896397/18014398509481984)) (0) 6305039478318695 (by norm_num) (by norm_num) (by norm_num)
    (roundEven_eq_of _ 6305039478318695 (by rw [abs_lt]; constructor <;> norm_num))]
  norm_num

theorem fl_two_sub_7 : fl (2 - 6305039478318695/4503599627370496) = 2702159776422297/4503599627370496 := by
  rw [fl_eq_pos (2 - 6305039478318695/4503599627370496) (-1) 5404319552844594 (by norm_num) (by norm_num) (by norm_num)
    (roundEven_eq_of _ 5404319552844594 (by rw [abs_lt]; constructor <;> norm_num))]
  norm_num

theorem fl_two : fl (2) = 2 := by
  rw [fl_eq_pos (2) (1) 4503599627370496 (by norm_num) (by norm_num) (by norm_num)
    (roundEven_eq_of _ 4503599627370496 (by rw [abs_lt]; constructor <;> norm_num))]
  norm_num

theorem fl_2000 : fl (2000) = 2000 := by
  rw [fl_eq_pos (2000) (10) 8796093022208000 (by norm_num) (by norm_num) (by norm_num)
    (roundEven_eq_of _ 8796093022208000 (by rw [abs_lt]; constructor <;> norm_num))]
  norm_num

theorem fl_3000 : fl (3000) = 3000 := by
  rw [fl_eq_pos (3000) (11) 6597069766656000 (by norm_num) (by norm_num) (by norm_num)
    (roundEven_eq_of _ 6597069766656000 (by rw [abs_lt]; constructor <;> norm_num))]
  norm_num

theorem spawnRateOf_one : spawnRateOf 1 = 2 := by
  unfold spawnRateOf
  rw [show ((1 : ℤ) : ℚ) - 1 = 0 by norm_num, zero_mul, fl_zero, sub_zero, fl_two]
  norm_num

theorem spawnRateOf_two : spawnRateOf 2 = 8106479329266893/4503599627370496 := by
  unfold spawnRateOf
  rw [fl_lit_02, show ((2 : ℤ) : ℚ) - 1 = 1 by norm_num, fl_mul_02_1, fl_two_sub_1]
  norm_num

theorem spawnRateOf_three : spawnRateOf 3 = 3602879701896397/2251799813685248 := by
  unfold spawnRateOf
  rw [fl_lit_02, show ((3 : ℤ) : ℚ) - 1 = 2 by norm_num, fl_mul_02_2, fl_two_sub_2]
  norm_num

theorem spawnRateOf_four : spawnRateOf 4 = 3152519739159347/2251799813685248 := by
  unfold spawnRateOf
  rw [fl_lit_02, show ((4 : ℤ) : ℚ) - 1 = 3 by norm_num, fl_mul_02_3, fl_two_sub_3]
  norm_num

theorem spawnRateOf_five : spawnRateOf 5 = 5404319552844595/4503599627370496 := by
  unfold spawnRateOf
  rw [fl_lit_02, show ((5 : ℤ) : ℚ) - 1 = 4 by norm_num, fl_mul_02_4, fl_two_sub_4]
  norm_num

theorem spawnRateOf_six : spawnRateOf 6 = 1 := by
  unfold spawnRateOf
  rw [fl_lit_02, show ((6 : ℤ) : ℚ) - 1 = 5 by norm_num, fl_mul_02_5, fl_two_sub_5]
  norm_num

theorem spawnRateOf_seven : spawnRateOf 7 = 900719925474099/1125899906842624 := by
  unfold spawnRateOf
  rw [fl_lit_02, show ((7 : ℤ) : ℚ) - 1 = 6 by norm_num, fl_mul_02_6, fl_two_sub_6]
  norm_num

theorem spawnRateOf_eight : spawnRateOf 8 = 2702159776422297/4503599627370496 := by
  unfold spawnRateOf
  rw [fl_lit_02, show ((8 : ℤ) : ℚ) - 1 = 7 by norm_num, fl_mul_02_7, fl_two_sub_7]
  norm_num

/-- From level 9 on the rounded cadence is the floor `0.5`. -/
theorem spawnRateOf_of_nine_le (l : ℤ) (h : 9 ≤ l) : spawnRateOf l = 1 / 2 := by
  unfold spawnRateOf
  rw [fl_lit_02]
  have hl : (8 : ℚ) ≤ (l : ℚ) - 1 := by
    have : (9 : ℚ) ≤ (l : ℚ) := by exact_mod_cast h
    linarith
  have hv : (0 : ℚ) ≤ ((l : ℚ) - 1) * (3602879701896397 / 18014398509481984) := by
    apply mul_nonneg <;> linarith
  have h1 := (fl_bounds_of_nonneg _ hv).1
  have h2 : (8 : ℚ) * (3602879701896397 / 18014398509481984) ≤
      ((l : ℚ) - 1) * (3602879701896397 / 18014398509481984) :=
    mul_le_mul_of_nonneg_right hl (by norm_num)
  have h3 : (159 : ℚ) / 100 ≤ fl (((l : ℚ) - 1) * (3602879701896397 / 18014398509481984)) := by
    refine le_trans ?_ h1
    refine le_trans ?_ (mul_le_mul_of_nonneg_left h2 (by norm_num))
    norm_num
  have h4 : fl (2 - fl (((l : ℚ) - 1) * (3602879701896397 / 18014398509481984))) ≤ 0.5 := by
    generalize fl (((l : ℚ) - 1) * (3602879701896397 / 18014398509481984)) = v at h3
    have hw : 2 - v ≤ 41 / 100 := by linarith
    rcases le_or_lt (2 - v) 0 with h0 | h0
    · exact le_trans (fl_nonpos _ h0) (by norm_num)
    · have := (fl_bounds_of_nonneg _ (le_of_lt h0)).2
      have h5 : (1 + 2 ^ (-53 : ℤ)) * (2 - v) ≤ (1 + 2 ^ (-53 : ℤ)) * (41 / 100) :=
        mul_le_mul_of_nonneg_left hw (by norm_num)
      have h6 : (1 + 2 ^ (-53 : ℤ) : ℚ) * (41 / 100) ≤ 0.5 := by norm_num
      exact le_trans this (le_trans h5 h6)
  rw [max_eq_left h4]
  norm_num

theorem specCadence_of_nine_le (l : ℤ) (h : 9 ≤ l) : specCadence l = 1 / 2 := by
  unfold specCadence
  have : (9 : ℚ) ≤ (l : ℚ) := by exact_mod_cast h
  rw [max_eq_left (by norm_num; linarith)]
  norm_num

/-- The rounded cadence at the levels of the game: at least `0.5`, within `2 ^ (-52)` of the
exact value, and not increasing with the level. -/
theorem spawnRateOf_facts (l : ℤ) (hl : 1 ≤ l) :
    (1 : ℚ) / 2 ≤ spawnRateOf l ∧ |spawnRateOf l - specCadence l| ≤ 2 ^ (-52 : ℤ) ∧
      spawnRateOf (l + 1) ≤ spawnRateOf l := by
  rcases le_or_lt 9 l with h9 | h9
  · rw [spawnRateOf_of_nine_le l h9, spawnRateOf_of_nine_le (l + 1) (by omega),
      specCadence_of_nine_le l h9]
    norm_num
  · have h8 := spawnRateOf_of_nine_le 9 (le_refl _)
    interval_cases l
    · rw [show (1 : ℤ) + 1 = 2 from rfl, spawnRateOf_one, spawnRateOf_two]
      refine ⟨by norm_num, ?_, by norm_num⟩
      rw [abs_le]
      constructor <;> norm_num [specCadence]
    · rw [show (2 : ℤ) + 1 = 3 from rfl, spawnRateOf_two, spawnRateOf_three]
      refine ⟨by norm_num, ?_, by norm_num⟩
      rw [abs_le]
      constructor <;> norm_num [specCadence]
    · rw [show (3 : ℤ) + 1 = 4 from rfl, spawnRateOf_three, spawnRateOf_four]
      refine ⟨by norm_num, ?_, by norm_num⟩
      rw [abs_le]
      constructor <;> norm_num [specCadence]
    · rw [show (4 : ℤ) + 1 = 5 from rfl, spawnRateOf_four, spawnRateOf_five]
      refine ⟨by norm_num, ?_, by norm_num⟩
      rw [abs_le]
      constructor <;> norm_num [specCadence]
    · rw [show (5 : ℤ) + 1 = 6 from rfl, spawnRateOf_five, spawnRateOf_six]
      refine ⟨by norm_num, ?_, by norm_num⟩
      rw [abs_le]
      constructor <;> norm_num [specCadence]
    · rw [show (6 : ℤ) + 1 = 7 from rfl, spawnRateOf_six, spawnRateOf_seven]
      refine ⟨by norm_num, ?_, by norm_num⟩
      rw [abs_le]
      constructor <;> norm_num [specCadence]
    · rw [show (7 : ℤ) + 1 = 8 from rfl, spawnRateOf_seven, spawnRateOf_eight]
      refine ⟨by norm_num, ?_, by norm_num⟩
      rw [abs_le]
      constructor <;> norm_num [specCadence]
    · rw [show (8 : ℤ) + 1 = 9 from rfl, spawnRateOf_eight, h8]
      refine ⟨by norm_num, ?_, by norm_num⟩
      rw [abs_le]
      constructor <;> norm_num [specCadence]

theorem spawnRateOf_antitone (l1 l2 : ℤ) (h1 : 1 ≤ l1) (h : l1 ≤ l2) :
    spawnRateOf l2 ≤ spawnRateOf l1 := by
  obtain ⟨k, rfl⟩ : ∃ k : ℕ, l2 = l1 + k := ⟨(l2 - l1).toNat, by omega⟩
  clear h
  induction k with
  | zero => simp
  | succ n ih =>
    have := (spawnRateOf_facts (l1 + n) (by omega)).2.2
    have e : l1 + ((n + 1 : ℕ) : ℤ) = l1 + n + 1 := by push_cast; ring
    rw [e]
    exact le_trans this ih

theorem fl_lit_18 : fl (1.8) = 8106479329266893/4503599627370496 := by
  rw [fl_eq_pos (1.8) (0) 8106479329266893 (by norm_num) (by norm_num) (by norm_num)
    (roundEven_eq_of _ 8106479329266893 (by rw [abs_lt]; constructor <;> norm_num))]
  norm_num

theorem fl_lit_08 : fl (0.8) = 3602879701896397/4503599627370496 := by
  rw [fl_eq_pos (0.8) (-1) 7205759403792794 (by norm_num) (by norm_num) (by norm_num)
    (roundEven_eq_of _ 7205759403792794 (by rw [abs_lt]; constructor <;> norm_num))]
  norm_num

/-! #### The bullet pass -/

theorem mem_updateBullets (width height : ℚ) (bs : List Bullet) (c : Bullet) :
    c ∈ updateBullets width height bs ↔
      ∃ b ∈ bs, b.update = c ∧ (0 < c.x ∧ c.x < width ∧ 0 < c.y ∧ c.y < height) := by
  simp only [updateBullets, List.mem_filterMap]
  constructor
  · rintro ⟨b, hb, h⟩
    split at h
    · rename_i hc
      simp only [Option.some.injEq] at h
      subst h
      simp only [gt_iff_lt, Bool.and_eq_true, decide_eq_true_eq] at hc
      exact ⟨b, hb, rfl, hc.1.1.1, hc.1.1.2, hc.1.2, hc.2⟩
    · exact absurd h (by simp)
  · rintro ⟨b, hb, rfl, h1, h2, h3, h4⟩
    refine ⟨b, hb, ?_⟩
    simp [h1, h2, h3, h4]

/-! ### C1: the bullet pass -/

/-- C1 as stated fails: the bullet `edgeBullet` has, after its update, lifetime 99
and position `(0, 50)`, which is not outside `[0, 100]` on either axis, yet the
tick removes it. -/
theorem bullet_removal_spec_fails :
    ¬ (edgeBullet.update ∉ updateBullets 100 100 [edgeBullet] ↔
        specBulletRemoved 100 100 edgeBullet.update) := by
  intro h
  have hrem : edgeBullet.update ∉ updateBullets 100 100 [edgeBullet] := by
    rw [mem_updateBullets]
    rintro ⟨b, _, _, hx, _⟩
    norm_num [edgeBullet, Bullet.update] at hx
  have := h.mp hrem
  norm_num [specBulletRemoved, edgeBullet, Bullet.update] at this

/-- C1 (amended): in one tick a bullet whose updated position is not strictly inside
the playfield `0 < x < width`, `0 < y < height` is removed, and a bullet whose
updated lifetime is positive is removed if and only if its updated position is
not strictly inside the playfield. -/
theorem bullet_removed_iff_not_inside (width height : ℚ) (bs : List Bullet) (b : Bullet)
    (hb : b ∈ bs) :
    (¬ (0 < b.update.x ∧ b.update.x < width ∧ 0 < b.update.y ∧ b.update.y < height) →
        b.update ∉ updateBullets width height bs) ∧
    (0 < b.update.life →
      (b.update ∉ updateBullets width height bs ↔
        ¬ (0 < b.update.x ∧ b.update.x < width ∧ 0 < b.update.y ∧ b.update.y < height))) := by
  have key : b.update ∈ updateBullets width height bs ↔
      (0 < b.update.x ∧ b.update.x < width ∧ 0 < b.update.y ∧ b.update.y < height) := by
    rw [mem_updateBullets]
    constructor
    · rintro ⟨_, _, _, h⟩
      exact h
    · intro h
      exact ⟨b, hb, rfl, h⟩
  exact ⟨fun h => by rw [key]; exact h, fun _ => by rw [key]⟩

/-- Witness of `bullet_removed_iff_not_inside`: a bullet of lifetime 99 at `(58, 50)`
after its update, in a 100 x 100 playfield. -/
theorem bullet_removed_iff_not_inside_witness :
    flyingBullet ∈ [flyingBullet] ∧ 0 < flyingBullet.update.life ∧
    (flyingBullet.update ∉ updateBullets 100 100 [flyingBullet] ↔
      ¬ (0 < flyingBullet.update.x ∧ flyingBullet.update.x < 100 ∧
          0 < flyingBullet.update.y ∧ flyingBullet.update.y < 100)) :=
  ⟨by simp, by norm_num [flyingBullet, Bullet.update],
    (bullet_removed_iff_not_inside 100 100 [flyingBullet] flyingBullet (by simp)).2
      (by norm_num [flyingBullet, Bullet.update])⟩

/-- The lifetime counter is not read by the bullet pass: `lastFrameBullet` has
lifetime 0 after its update and stays in the list. -/
theorem expired_bullet_kept :
    lastFrameBullet.update.life = 0 ∧
    updateBullets 100 100 [lastFrameBullet] = [lastFrameBullet.update] := by
  refine ⟨by norm_num [lastFrameBullet, Bullet.update], ?_⟩
  simp only [updateBullets, List.filterMap_cons, List.filterMap_nil]
  norm_num [lastFrameBullet, Bullet.update]

/-! ### C2: the clamp of `Player.update` -/

/-- C2 as stated fails: in a playfield of width and height 30 the player ends at
`(20, 20)`, to the right of and below `30 - 20 = 10`. -/
theorem player_clamp_fails_narrow :
    ¬ ((20 ≤ ((Player.new 15 15).update Keys.released 30 30).x ∧
          ((Player.new 15 15).update Keys.released 30 30).x ≤ 30 - 20) ∧
        (20 ≤ ((Player.new 15 15).update Keys.released 30 30).y ∧
          ((Player.new 15 15).update Keys.released 30 30).y ≤ 30 - 20)) := by
  norm_num [Player.update, Player.new, Keys.released]

/-- C2 (amended): for a player of radius 20, every key state and every starting
position, when the playfield is at least `2 * radius = 40` wide and high, the
position after `Player.update` is in `[20, width - 20] x [20, height - 20]`. -/
theorem player_update_in_bounds (p : Player) (keys : Keys) (width height : ℚ)
    (hr : p.radius = 20) (hw : 40 ≤ width) (hh : 40 ≤ height) :
    (20 ≤ (p.update keys width height).x ∧ (p.update keys width height).x ≤ width - 20) ∧
    (20 ≤ (p.update keys width height).y ∧ (p.update keys width height).y ≤ height - 20) := by
  simp only [Player.update, hr]
  refine ⟨⟨le_max_left _ _, ?_⟩, ⟨le_max_left _ _, ?_⟩⟩
  · exact max_le (by linarith) (min_le_left _ _)
  · exact max_le (by linarith) (min_le_left _ _)

/-- Witness of `player_update_in_bounds`: a player far outside an 800 x 600 playfield
with two opposite keys and one more held. -/
theorem player_update_in_bounds_witness :
    (20 ≤ ((Player.new 5000 (-70)).update
        ⟨true, false, true, false, false, true, false, false⟩ 800 600).x ∧
      ((Player.new 5000 (-70)).update
        ⟨true, false, true, false, false, true, false, false⟩ 800 600).x ≤ 800 - 20) ∧
    (20 ≤ ((Player.new 5000 (-70)).update
        ⟨true, false, true, false, false, true, false, false⟩ 800 600).y ∧
      ((Player.new 5000 (-70)).update
        ⟨true, false, true, false, false, true, false, false⟩ 800 600).y ≤ 600 - 20) :=
  player_update_in_bounds (Player.new 5000 (-70))
    ⟨true, false, true, false, false, true, false, false⟩ 800 600 rfl (by norm_num) (by norm_num)

/-! ### C3: the circle-overlap predicate -/

theorem fl_probe_dx : fl (39013117333383/1099511627776) = 39013117333383/1099511627776 := by
  rw [fl_eq_pos (39013117333383/1099511627776) (5) 4993679018673024 (by norm_num) (by norm_num) (by norm_num)
    (roundEven_eq_of _ 4993679018673024 (by rw [abs_lt]; constructor <;> norm_num))]
  norm_num

theorem fl_probe_dy : fl (13378271660009/2199023255552) = 13378271660009/2199023255552 := by
  rw [fl_eq_pos (13378271660009/2199023255552) (2) 6849675089924608 (by norm_num) (by norm_num) (by norm_num)
    (roundEven_eq_of _ 6849675089924608 (by rw [abs_lt]; constructor <;> norm_num))]
  norm_num

theorem fl_probe_sx : fl (1522023324068309080766224689/1208925819614629174706176) = 5537088596859791/4398046511104 := by
  rw [fl_eq_pos (1522023324068309080766224689/1208925819614629174706176) (10) 5537088596859791 (by norm_num) (by norm_num) (by norm_num)
    (roundEven_eq_of _ 5537088596859791 (by rw [abs_lt]; constructor <;> norm_num))]
  norm_num

theorem fl_probe_sy : fl (178978152608999964489880081/4835703278458516698824704) = 2604474904495873/70368744177664 := by
  rw [fl_eq_pos (178978152608999964489880081/4835703278458516698824704) (5) 5208949808991746 (by norm_num) (by norm_num) (by norm_num)
    (roundEven_eq_of _ 5208949808991746 (by rw [abs_lt]; constructor <;> norm_num))]
  norm_num

theorem fl_probe_sum : fl (91197892454252529/70368744177664) = 5699868278390783/4398046511104 := by
  rw [fl_eq_pos (91197892454252529/70368744177664) (10) 5699868278390783 (by norm_num) (by norm_num) (by norm_num)
    (roundEven_eq_of _ 5699868278390783 (by rw [abs_lt]; constructor <;> norm_num))]
  norm_num

theorem fl_36 : fl (36) = 36 := by
  rw [fl_eq_pos (36) (5) 5066549580791808 (by norm_num) (by norm_num) (by norm_num)
    (roundEven_eq_of _ 5066549580791808 (by rw [abs_lt]; constructor <;> norm_num))]
  norm_num

theorem fsqrt_probe : fsqrt (5699868278390783/4398046511104) = 36 := by
  rw [fsqrt_eq_of (5699868278390783/4398046511104) (5) 5066549580791808 (by norm_num) (by norm_num)
    (by norm_num) (by norm_num) (by norm_num)]
  norm_num

theorem player_collides_of_lt (p : Player) (e : Enemy) (hs : 0 < p.radius + e.radius)
    (hd : (p.x - e.x) * (p.x - e.x) + (p.y - e.y) * (p.y - e.y) ≤
      ((1 - 2 ^ (-50 : ℤ)) * (p.radius + e.radius)) ^ 2) : p.collidesWith e = true :=
  circlesOverlap_of_lt _ _ _ _ _ _ hs hd

theorem player_collides_of_ge (p : Player) (e : Enemy)
    (hd : p.radius + e.radius ≤ 0 ∨ ((1 + 2 ^ (-50 : ℤ)) * (p.radius + e.radius)) ^ 2 ≤
      (p.x - e.x) * (p.x - e.x) + (p.y - e.y) * (p.y - e.y)) : p.collidesWith e = false :=
  circlesOverlap_of_ge _ _ _ _ _ _ hd

theorem bullet_collides_of_lt (b : Bullet) (e : Enemy) (hs : 0 < b.radius + e.radius)
    (hd : (b.x - e.x) * (b.x - e.x) + (b.y - e.y) * (b.y - e.y) ≤
      ((1 - 2 ^ (-50 : ℤ)) * (b.radius + e.radius)) ^ 2) : b.collidesWith e = true :=
  circlesOverlap_of_lt _ _ _ _ _ _ hs hd

theorem bullet_collides_of_ge (b : Bullet) (e : Enemy)
    (hd : b.radius + e.radius ≤ 0 ∨ ((1 + 2 ^ (-50 : ℤ)) * (b.radius + e.radius)) ^ 2 ≤
      (b.x - e.x) * (b.x - e.x) + (b.y - e.y) * (b.y - e.y)) : b.collidesWith e = false :=
  circlesOverlap_of_ge _ _ _ _ _ _ hd

/-- The rounded test against the real distance: true when the distance is below
`(1 - 2 ^ (-50)) * (r + er)`, false when it is at least `(1 + 2 ^ (-50)) * (r + er)`. -/
theorem circlesOverlap_real (x y r ex ey er : ℚ) :
    (Real.sqrt (((x : ℝ) - ex) ^ 2 + ((y : ℝ) - ey) ^ 2) < (1 - 2 ^ (-50 : ℤ)) * ((r : ℝ) + er) →
      circlesOverlap x y r ex ey er = true) ∧
    ((1 + 2 ^ (-50 : ℤ)) * ((r : ℝ) + er) ≤ Real.sqrt (((x : ℝ) - ex) ^ 2 + ((y : ℝ) - ey) ^ 2) →
      circlesOverlap x y r ex ey er = false) := by
  have hcast : (((x - ex) * (x - ex) + (y - ey) * (y - ey) : ℚ) : ℝ) =
      ((x : ℝ) - ex) ^ 2 + ((y : ℝ) - ey) ^ 2 := by
    push_cast
    ring
  constructor
  · intro h
    have hc : (0 : ℝ) < (1 - 2 ^ (-50 : ℤ)) * ((r : ℝ) + er) :=
      lt_of_le_of_lt (Real.sqrt_nonneg _) h
    have hs : (0 : ℝ) < (r : ℝ) + er := by
      by_contra hn
      push_neg at hn
      have : (1 - 2 ^ (-50 : ℤ)) * ((r : ℝ) + er) ≤ 0 :=
        mul_nonpos_of_nonneg_of_nonpos (by norm_num) hn
      linarith
    rw [Real.sqrt_lt' hc, ← hcast] at h
    apply circlesOverlap_of_lt
    · exact_mod_cast hs
    · have h2 : (((x - ex) * (x - ex) + (y - ey) * (y - ey) : ℚ) : ℝ) <
          ((((1 - 2 ^ (-50 : ℤ)) * (r + er)) ^ 2 : ℚ) : ℝ) := by
        push_cast
        push_cast at h
        exact h
      exact le_of_lt (by exact_mod_cast h2)
  · intro h
    apply circlesOverlap_of_ge
    rcases le_or_lt (r + er) 0 with hs | hs
    · exact Or.inl hs
    · right
      have hs' : (0 : ℝ) < (r : ℝ) + er := by exact_mod_cast hs
      have hc : (0 : ℝ) < (1 + 2 ^ (-50 : ℤ)) * ((r : ℝ) + er) :=
        mul_pos (by norm_num) hs'
      have h1 := (Real.le_sqrt' hc).mp h
      rw [← hcast] at h1
      have h2 : ((((1 + 2 ^ (-50 : ℤ)) * (r + er)) ^ 2 : ℚ) : ℝ) ≤
          (((x - ex) * (x - ex) + (y - ey) * (y - ey) : ℚ) : ℝ) := by
        push_cast
        push_cast at h1
        exact h1
      exact_mod_cast h2

theorem probe_overlap : circlesOverlap 400 520 20 (478817768443783/1099511627776) (1130113821227031/2199023255552) 16 = false := by
  unfold circlesOverlap
  dsimp only
  rw [show (400 : ℚ) - 478817768443783/1099511627776 = -(39013117333383/1099511627776) from by norm_num, fl_neg, fl_probe_dx,
    show (520 : ℚ) - 1130113821227031/2199023255552 = 13378271660009/2199023255552 from by norm_num, fl_probe_dy, neg_mul_neg,
    show (39013117333383/1099511627776 : ℚ) * (39013117333383/1099511627776) = 1522023324068309080766224689/1208925819614629174706176 from by norm_num, fl_probe_sx,
    show (13378271660009/2199023255552 : ℚ) * (13378271660009/2199023255552) = 178978152608999964489880081/4835703278458516698824704 from by norm_num, fl_probe_sy,
    show (5537088596859791/4398046511104 : ℚ) + 2604474904495873/70368744177664 = 91197892454252529/70368744177664 from by norm_num, fl_probe_sum, fsqrt_probe,
    show (20 : ℚ) + 16 = 36 from by norm_num, fl_36]
  simp

/-- C3 as stated fails: for the player of radius 20 at `(400, 520)` and the enemy of
radius 16 at `(435.48222351435743, 513.9162664031714)` the distance of the
centres is less than `20 + 16`, and `collidesWith` returns false (the square
root is rounded to `36`). -/
theorem collidesWith_differs_from_exact :
    probePlayer.collidesWith probeEnemy = false ∧
    Real.sqrt (((probePlayer.x : ℝ) - probeEnemy.x) ^ 2 +
        ((probePlayer.y : ℝ) - probeEnemy.y) ^ 2) <
      (probePlayer.radius : ℝ) + probeEnemy.radius := by
  constructor
  · exact probe_overlap
  · rw [Real.sqrt_lt' (by norm_num [probePlayer, probeEnemy, Player.new])]
    norm_num [probePlayer, probeEnemy, Player.new]

/-- C3 (amended): `Player.collidesWith` and `Bullet.collidesWith` compare the distance of
the centres as computed in doubles with the rounded sum of the radii. They
return true when the distance is less than `(1 - 2 ^ (-50))` times the sum of the
radii and false when it is at least `(1 + 2 ^ (-50))` times that sum; the result
is the same when the two circles are swapped; the bullet of radius 3 at
`(100, 100)` and the enemy of radius 15 at `(103, 100)` collide. -/
theorem collidesWith_rounded_distance (p : Player) (b : Bullet) (e : Enemy) :
    ((Real.sqrt (((p.x : ℝ) - e.x) ^ 2 + ((p.y : ℝ) - e.y) ^ 2) <
          (1 - 2 ^ (-50 : ℤ)) * ((p.radius : ℝ) + e.radius) → p.collidesWith e = true) ∧
      ((1 + 2 ^ (-50 : ℤ)) * ((p.radius : ℝ) + e.radius) ≤
          Real.sqrt (((p.x : ℝ) - e.x) ^ 2 + ((p.y : ℝ) - e.y) ^ 2) → p.collidesWith e = false) ∧
      p.collidesWith e =
        Player.collidesWith { p with x := e.x, y := e.y, radius := e.radius }
          { e with x := p.x, y := p.y, radius := p.radius }) ∧
    ((Real.sqrt (((b.x : ℝ) - e.x) ^ 2 + ((b.y : ℝ) - e.y) ^ 2) <
          (1 - 2 ^ (-50 : ℤ)) * ((b.radius : ℝ) + e.radius) → b.collidesWith e = true) ∧
      ((1 + 2 ^ (-50 : ℤ)) * ((b.radius : ℝ) + e.radius) ≤
          Real.sqrt (((b.x : ℝ) - e.x) ^ 2 + ((b.y : ℝ) - e.y) ^ 2) → b.collidesWith e = false) ∧
      b.collidesWith e =
        Bullet.collidesWith { b with x := e.x, y := e.y, radius := e.radius }
          { e with x := b.x, y := b.y, radius := b.radius }) ∧
    scenarioBullet.collidesWith scenarioEnemy = true := by
  refine ⟨⟨(circlesOverlap_real _ _ _ _ _ _).1, (circlesOverlap_real _ _ _ _ _ _).2,
    circlesOverlap_comm _ _ _ _ _ _⟩,
    ⟨(circlesOverlap_real _ _ _ _ _ _).1, (circlesOverlap_real _ _ _ _ _ _).2,
    circlesOverlap_comm _ _ _ _ _ _⟩, ?_⟩
  apply bullet_collides_of_lt <;> norm_num [scenarioBullet, scenarioEnemy]

/-- Witness of `collidesWith_rounded_distance`: the scenario bullet and enemy at distance 3
with radii 3 and 15, and the probe player at `(400, 520)`, far from that enemy. -/
theorem collidesWith_rounded_distance_witness :
    scenarioBullet.collidesWith scenarioEnemy = true ∧
    probePlayer.collidesWith scenarioEnemy = false :=
  ⟨(collidesWith_rounded_distance probePlayer scenarioBullet scenarioEnemy).2.1.1 (by
      rw [Real.sqrt_lt' (by norm_num [scenarioBullet, scenarioEnemy])]
      norm_num [scenarioBullet, scenarioEnemy]),
    (collidesWith_rounded_distance probePlayer scenarioBullet scenarioEnemy).1.2.1 (by
      rw [Real.le_sqrt' (by norm_num [probePlayer, Player.new, scenarioEnemy])]
      norm_num [probePlayer, Player.new, scenarioEnemy])⟩

/-! ### C4: `start` in the running state -/

/-- C4: in a running state `start()` changes nothing, the callback log included; from a
state that is not running, a second `start()` changes nothing after the first,
and the two calls invoke `onGameStart` once. -/
theorem start_idempotent (g : Game) :
    (g.gameRunning = true → g.start = g) ∧
    (g.gameRunning = false →
      g.start.start = g.start ∧
      g.start.start.log.count Event.onGameStart = g.log.count Event.onGameStart + 1) := by
  constructor
  · intro h
    simp [Game.start, h]
  · intro h
    have h1 : g.start.gameRunning = true := by simp [Game.start, h]
    have h2 : g.start.start = g.start := by
      rw [Game.start, if_pos h1]
    refine ⟨h2, ?_⟩
    rw [h2]
    simp [Game.start, h]

/-- Witness of `start_idempotent`: the started engine, and the engine as constructed. -/
theorem start_idempotent_witness :
    (startedGame.gameRunning = true ∧ startedGame.start = startedGame) ∧
    ((Game.init 800 600).gameRunning = false ∧
      (Game.init 800 600).start.start = (Game.init 800 600).start ∧
      (Game.init 800 600).start.start.log.count Event.onGameStart =
        (Game.init 800 600).log.count Event.onGameStart + 1) :=
  ⟨⟨rfl, (start_idempotent startedGame).1 rfl⟩, ⟨rfl, (start_idempotent (Game.init 800 600)).2 rfl⟩⟩

/-! ### Frame lemmas of the engine operations -/

@[simp]
theorem createExplosion_score (env : Env) (g : Game) (x y : ℚ) (c : String) :
    (Game.createExplosion env g x y c).score = g.score := rfl

@[simp]
theorem createExplosion_lives (env : Env) (g : Game) (x y : ℚ) (c : String) :
    (Game.createExplosion env g x y c).lives = g.lives := rfl

@[simp]
theorem createExplosion_level (env : Env) (g : Game) (x y : ℚ) (c : String) :
    (Game.createExplosion env g x y c).level = g.level := rfl

@[simp]
theorem createExplosion_enemies (env : Env) (g : Game) (x y : ℚ) (c : String) :
    (Game.createExplosion env g x y c).enemies = g.enemies := rfl

@[simp]
theorem createExplosion_bullets (env : Env) (g : Game) (x y : ℚ) (c : String) :
    (Game.createExplosion env g x y c).bullets = g.bullets := rfl

@[simp]
theorem createExplosion_gameRunning (env : Env) (g : Game) (x y : ℚ) (c : String) :
    (Game.createExplosion env g x y c).gameRunning = g.gameRunning := rfl

@[simp]
theorem createExplosion_log (env : Env) (g : Game) (x y : ℚ) (c : String) :
    (Game.createExplosion env g x y c).log = g.log := rfl

@[simp]
theorem createExplosion_player (env : Env) (g : Game) (x y : ℚ) (c : String) :
    (Game.createExplosion env g x y c).player = g.player := rfl

@[simp]
theorem createExplosion_enemySpawnRate (env : Env) (g : Game) (x y : ℚ) (c : String) :
    (Game.createExplosion env g x y c).enemySpawnRate = g.enemySpawnRate := rfl

theorem SameSession.rfl (g : Game) : SameSession g g :=
  ⟨Eq.refl _, Eq.refl _, Eq.refl _, Eq.refl _, Eq.refl _⟩

theorem SameSession.trans {a b c : Game} (h1 : SameSession a b) (h2 : SameSession b c) :
    SameSession a c :=
  ⟨h2.level.trans h1.level, h2.gameRunning.trans h1.gameRunning, h2.log.trans h1.log,
    h2.enemySpawnRate.trans h1.enemySpawnRate, h2.player.trans h1.player⟩

theorem bulletHit_sameSession (env : Env) (g : Game) (i j : ℕ) (e : Enemy) :
    SameSession g (Game.bulletHit env g i j e) := by
  unfold Game.bulletHit
  dsimp only
  split <;> exact ⟨by simp, by simp, by simp, by simp, by simp⟩

theorem bulletHit_lives (env : Env) (g : Game) (i j : ℕ) (e : Enemy) :
    (Game.bulletHit env g i j e).lives = g.lives := by
  unfold Game.bulletHit
  dsimp only
  split <;> simp

theorem playerHit_sameSession (env : Env) (p : Player) (g : Game) (i : ℕ) :
    SameSession g (Game.playerHit env p g i) :=
  ⟨Eq.refl _, Eq.refl _, Eq.refl _, Eq.refl _, Eq.refl _⟩

theorem playerHit_score (env : Env) (p : Player) (g : Game) (i : ℕ) :
    (Game.playerHit env p g i).score = g.score := rfl

theorem playerHit_lives (env : Env) (p : Player) (g : Game) (i : ℕ) :
    (Game.playerHit env p g i).lives = g.lives - 1 := rfl

theorem playerHit_enemies (env : Env) (p : Player) (g : Game) (i : ℕ) :
    (Game.playerHit env p g i).enemies = g.enemies.eraseIdx i := rfl

/-- A property that every hit of the bullet pass keeps holds after the pass. -/
theorem bulletEnemyLoop_induct (env : Env) (P : Game → Prop)
    (hstep : ∀ (g : Game) (i j : ℕ) (e : Enemy), P g → g.enemies[j]? = some e →
      P (Game.bulletHit env g i j e)) :
    ∀ (n : ℕ) (g : Game), P g → P (Game.bulletEnemyLoop env n g) := by
  intro n
  induction n with
  | zero => intro g hg; exact hg
  | succ i ih =>
    intro g hg
    simp only [Game.bulletEnemyLoop]
    split
    · exact ih g hg
    · split
      · exact ih g hg
      · split
        · exact ih g hg
        · rename_i e he
          exact ih _ (hstep g i _ e hg he)

/-- A property that every hit of the player pass keeps holds after the pass. -/
theorem enemyPlayerLoop_induct (env : Env) (p : Player) (P : Game → Prop)
    (hstep : ∀ (g : Game) (i : ℕ), P g → P (Game.playerHit env p g i)) :
    ∀ (fuel i : ℕ) (g : Game), P g → P (Game.enemyPlayerLoop env p fuel i g) := by
  intro fuel
  induction fuel with
  | zero => intro i g hg; exact hg
  | succ n ih =>
    intro i g hg
    simp only [Game.enemyPlayerLoop]
    split
    · exact hg
    · split
      · exact ih _ _ (hstep g i hg)
      · exact ih _ _ hg

/-! ### What one tick does to the session counters -/

theorem bulletEnemyLoop_sameSession (env : Env) (n : ℕ) (g : Game) :
    SameSession g (Game.bulletEnemyLoop env n g) :=
  bulletEnemyLoop_induct env (fun g1 => SameSession g g1)
    (fun g1 i j e h _ => h.trans (bulletHit_sameSession env g1 i j e)) n g (SameSession.rfl g)

theorem bulletEnemyLoop_lives (env : Env) (n : ℕ) (g : Game) :
    (Game.bulletEnemyLoop env n g).lives = g.lives :=
  bulletEnemyLoop_induct env (fun g1 => g1.lives = g.lives)
    (fun g1 i j e h _ => (bulletHit_lives env g1 i j e).trans h) n g (Eq.refl _)

theorem bulletHit_score (env : Env) (g : Game) (i j : ℕ) (e : Enemy)
    (hp : ∀ a ∈ g.enemies, 0 ≤ a.points) (he : g.enemies[j]? = some e) :
    g.score ≤ (Game.bulletHit env g i j e).score ∧
      ∀ a ∈ (Game.bulletHit env g i j e).enemies, 0 ≤ a.points := by
  have hmem : e ∈ g.enemies := List.getElem?_mem he
  have hset : ∀ a ∈ g.enemies.set j e.takeDamage, 0 ≤ a.points := by
    intro a ha
    rcases List.mem_or_eq_of_mem_set ha with h | h
    · exact hp a h
    · rw [h]
      exact hp e hmem
  unfold Game.bulletHit
  dsimp only
  split
  · refine ⟨?_, by simpa using hset⟩
    simp only [createExplosion_score]
    have : 0 ≤ e.takeDamage.points := hp e hmem
    linarith
  · exact ⟨le_refl _, hset⟩

theorem bulletEnemyLoop_score (env : Env) (n : ℕ) (g : Game)
    (hp : ∀ a ∈ g.enemies, 0 ≤ a.points) :
    g.score ≤ (Game.bulletEnemyLoop env n g).score ∧
      ∀ a ∈ (Game.bulletEnemyLoop env n g).enemies, 0 ≤ a.points :=
  bulletEnemyLoop_induct env (fun g1 => g.score ≤ g1.score ∧ ∀ a ∈ g1.enemies, 0 ≤ a.points)
    (fun g1 i j e h he =>
      ⟨h.1.trans (bulletHit_score env g1 i j e h.2 he).1, (bulletHit_score env g1 i j e h.2 he).2⟩)
    n g ⟨le_refl _, hp⟩

theorem enemyPlayerLoop_sameSession (env : Env) (p : Player) (fuel i : ℕ) (g : Game) :
    SameSession g (Game.enemyPlayerLoop env p fuel i g) :=
  enemyPlayerLoop_induct env p (fun g1 => SameSession g g1)
    (fun g1 k h => h.trans (playerHit_sameSession env p g1 k)) fuel i g (SameSession.rfl g)

theorem enemyPlayerLoop_score (env : Env) (p : Player) (fuel i : ℕ) (g : Game) :
    (Game.enemyPlayerLoop env p fuel i g).score = g.score :=
  enemyPlayerLoop_induct env p (fun g1 => g1.score = g.score)
    (fun g1 k h => (playerHit_score env p g1 k).trans h) fuel i g (Eq.refl _)

theorem enemyPlayerLoop_lives_le (env : Env) (p : Player) (fuel i : ℕ) (g : Game) :
    (Game.enemyPlayerLoop env p fuel i g).lives ≤ g.lives :=
  enemyPlayerLoop_induct env p (fun g1 => g1.lives ≤ g.lives)
    (fun g1 k h => by
      have h1 := playerHit_lives env p g1 k
      have h2 : g1.lives ≤ g.lives := h
      show (Game.playerHit env p g1 k).lives ≤ g.lives
      linarith) fuel i g (le_refl _)

theorem enemyPlayerLoop_points (env : Env) (p : Player) (fuel i : ℕ) (g : Game)
    (hp : ∀ a ∈ g.enemies, 0 ≤ a.points) :
    ∀ a ∈ (Game.enemyPlayerLoop env p fuel i g).enemies, 0 ≤ a.points :=
  enemyPlayerLoop_induct env p (fun g1 => ∀ a ∈ g1.enemies, 0 ≤ a.points)
    (fun g1 k h a ha => h a ((List.eraseIdx_sublist g1.enemies k).subset ha)) fuel i g hp

theorem checkCollisions_sameSession (env : Env) (p : Player) (g : Game) :
    (Game.checkCollisions env p g).level = g.level ∧
    (Game.checkCollisions env p g).gameRunning = g.gameRunning ∧
    (Game.checkCollisions env p g).enemySpawnRate = g.enemySpawnRate ∧
    (Game.checkCollisions env p g).player = g.player := by
  have h1 := bulletEnemyLoop_sameSession env g.bullets.length g
  have h2 := enemyPlayerLoop_sameSession env p
    (Game.bulletEnemyLoop env g.bullets.length g).enemies.length 0
    (Game.bulletEnemyLoop env g.bullets.length g)
  exact ⟨(h1.trans h2).level, (h1.trans h2).gameRunning, (h1.trans h2).enemySpawnRate,
    (h1.trans h2).player⟩

theorem checkCollisions_lives_le (env : Env) (p : Player) (g : Game) :
    (Game.checkCollisions env p g).lives ≤ g.lives := by
  have h1 := bulletEnemyLoop_lives env g.bullets.length g
  have h2 := enemyPlayerLoop_lives_le env p
    (Game.bulletEnemyLoop env g.bullets.length g).enemies.length 0
    (Game.bulletEnemyLoop env g.bullets.length g)
  simp only [Game.checkCollisions]
  linarith

theorem checkCollisions_score (env : Env) (p : Player) (g : Game)
    (hp : ∀ a ∈ g.enemies, 0 ≤ a.points) :
    g.score ≤ (Game.checkCollisions env p g).score ∧
      ∀ a ∈ (Game.checkCollisions env p g).enemies, 0 ≤ a.points := by
  have h1 := bulletEnemyLoop_score env g.bullets.length g hp
  have h2 := enemyPlayerLoop_score env p
    (Game.bulletEnemyLoop env g.bullets.length g).enemies.length 0
    (Game.bulletEnemyLoop env g.bullets.length g)
  have h3 := enemyPlayerLoop_points env p
    (Game.bulletEnemyLoop env g.bullets.length g).enemies.length 0
    (Game.bulletEnemyLoop env g.bullets.length g) h1.2
  simp only [Game.checkCollisions]
  exact ⟨by rw [h2]; exact h1.1, h3⟩

theorem mem_updateEnemies (env : Env) (es : List Enemy) (a : Enemy)
    (ha : a ∈ updateEnemies env es) : ∃ e ∈ es, a = e.update env := by
  simp only [updateEnemies, List.mem_filterMap] at ha
  obtain ⟨e, he, h⟩ := ha
  split at h
  · simp only [Option.some.injEq] at h
    exact ⟨e, he, h.symm⟩
  · exact absurd h (by simp)

theorem beforeCollisions_frame (env : Env) (now1 now2 : ℚ) (p : Player) (g : Game) :
    (Game.beforeCollisions env now1 now2 p g).score = g.score ∧
    (Game.beforeCollisions env now1 now2 p g).lives = g.lives ∧
    (Game.beforeCollisions env now1 now2 p g).level = g.level ∧
    (Game.beforeCollisions env now1 now2 p g).enemySpawnRate = g.enemySpawnRate ∧
    (Game.beforeCollisions env now1 now2 p g).gameRunning = g.gameRunning ∧
    (Game.beforeCollisions env now1 now2 p g).log = g.log ∧
    (Game.beforeCollisions env now1 now2 p g).player = some (Game.tickPlayer env p g) := by
  unfold Game.beforeCollisions Game.spawnEnemy
  dsimp only
  split <;> simp

theorem beforeCollisions_points (env : Env) (now1 now2 : ℚ) (p : Player) (g : Game)
    (hl : 0 ≤ g.level) (hp : ∀ a ∈ g.enemies, 0 ≤ a.points) :
    ∀ a ∈ (Game.beforeCollisions env now1 now2 p g).enemies, 0 ≤ a.points := by
  intro a ha
  unfold Game.beforeCollisions Game.spawnEnemy at ha
  dsimp only at ha
  obtain ⟨e, he, rfl⟩ := mem_updateEnemies env _ a ha
  show 0 ≤ e.points
  split at he
  · simp only [List.mem_append, List.mem_singleton] at he
    rcases he with he | he
    · exact hp e he
    · rw [he]
      simp only [Enemy.new]
      linarith
  · exact hp e he

theorem updateDifficulty_level (g : Game) :
    g.updateDifficulty.level = Int.floor ((g.score : ℚ) / 500) + 1 := by
  unfold Game.updateDifficulty
  dsimp only
  split
  · rfl
  · rename_i h
    simp only [ne_eq, not_not] at h
    exact h.symm

theorem updateDifficulty_rate (g : Game) (hr : g.enemySpawnRate = spawnRateOf g.level) :
    g.updateDifficulty.enemySpawnRate = spawnRateOf g.updateDifficulty.level := by
  unfold Game.updateDifficulty
  dsimp only
  split
  · rfl
  · exact hr

theorem updateDifficulty_frame (g : Game) :
    g.updateDifficulty.score = g.score ∧ g.updateDifficulty.lives = g.lives ∧
    g.updateDifficulty.enemies = g.enemies ∧ g.updateDifficulty.player = g.player ∧
    g.updateDifficulty.gameRunning = g.gameRunning ∧ g.updateDifficulty.log = g.log := by
  unfold Game.updateDifficulty
  dsimp only
  split <;> simp

theorem afterCollisions_frame (g : Game) :
    g.afterCollisions.score = g.score ∧ g.afterCollisions.lives = g.lives ∧
    g.afterCollisions.enemies = g.enemies ∧ g.afterCollisions.player = g.player := by
  have h := updateDifficulty_frame { g with particles := updateParticles g.particles }
  unfold Game.afterCollisions
  dsimp only
  split
  · exact ⟨h.1, h.2.1, h.2.2.1, h.2.2.2.1⟩
  · exact ⟨h.1, h.2.1, h.2.2.1, h.2.2.2.1⟩

theorem afterCollisions_level (g : Game) :
    g.afterCollisions.level = Int.floor ((g.afterCollisions.score : ℚ) / 500) + 1 := by
  rw [(afterCollisions_frame g).1]
  have h := updateDifficulty_level { g with particles := updateParticles g.particles }
  unfold Game.afterCollisions
  dsimp only
  split
  · exact h
  · exact h

theorem afterCollisions_rate (g : Game) (hr : g.enemySpawnRate = spawnRateOf g.level) :
    g.afterCollisions.enemySpawnRate = spawnRateOf g.afterCollisions.level := by
  have h := updateDifficulty_rate { g with particles := updateParticles g.particles } hr
  unfold Game.afterCollisions
  dsimp only
  split
  · exact h
  · exact h

/-- The game-over check at the end of `update`: with no life left the engine stops and
`onGameOver` is invoked once; with a life left neither happens. -/
theorem afterCollisions_gameOver (g : Game) :
    (g.lives ≤ 0 → g.afterCollisions.gameRunning = false ∧
      g.afterCollisions.log = g.log ++ [Event.onGameOver]) ∧
    (0 < g.lives → g.afterCollisions.gameRunning = g.gameRunning ∧
      g.afterCollisions.log = g.log) := by
  have h := updateDifficulty_frame { g with particles := updateParticles g.particles }
  have hl : (Game.updateDifficulty { g with particles := updateParticles g.particles }).lives
      = g.lives := h.2.1
  unfold Game.afterCollisions
  dsimp only
  constructor
  · intro h0
    rw [if_pos (by rw [hl]; exact h0)]
    exact ⟨rfl, by rw [h.2.2.2.2.2]⟩
  · intro h0
    rw [if_neg (by rw [hl]; exact not_le.mpr h0)]
    exact ⟨h.2.2.2.2.1, h.2.2.2.2.2⟩

/-- A tick of a running engine with a player does not throw. -/
theorem update_running (env : Env) (now1 now2 : ℚ) (g : Game) (p : Player)
    (hrun : g.gameRunning = true) (hp : g.player = some p) :
    Game.update env now1 now2 g =
      some (Game.afterCollisions (Game.checkCollisions env (Game.tickPlayer env p g)
        (Game.beforeCollisions env now1 now2 p g))) := by
  simp [Game.update, hrun, hp]

/-- A tick of an engine that is not running changes nothing. -/
theorem update_not_running (env : Env) (now1 now2 : ℚ) (g : Game)
    (hrun : g.gameRunning = false) : Game.update env now1 now2 g = some g := by
  simp [Game.update, hrun]

/-- What a tick of a running engine does, from the lemmas on its three parts. -/
theorem tick_summary (env : Env) (now1 now2 : ℚ) (g : Game) (p : Player) :
    (Game.afterCollisions (Game.checkCollisions env (Game.tickPlayer env p g)
        (Game.beforeCollisions env now1 now2 p g))).lives ≤ g.lives ∧
    (Game.afterCollisions (Game.checkCollisions env (Game.tickPlayer env p g)
        (Game.beforeCollisions env now1 now2 p g))).player = some (Game.tickPlayer env p g) ∧
    (g.enemySpawnRate = spawnRateOf g.level →
      (Game.afterCollisions (Game.checkCollisions env (Game.tickPlayer env p g)
        (Game.beforeCollisions env now1 now2 p g))).enemySpawnRate =
      spawnRateOf (Game.afterCollisions (Game.checkCollisions env (Game.tickPlayer env p g)
        (Game.beforeCollisions env now1 now2 p g))).level) ∧
    (0 ≤ g.level → (∀ a ∈ g.enemies, 0 ≤ a.points) →
      g.score ≤ (Game.afterCollisions (Game.checkCollisions env (Game.tickPlayer env p g)
        (Game.beforeCollisions env now1 now2 p g))).score ∧
      ∀ a ∈ (Game.afterCollisions (Game.checkCollisions env (Game.tickPlayer env p g)
        (Game.beforeCollisions env now1 now2 p g))).enemies, 0 ≤ a.points) := by
  have hb := beforeCollisions_frame env now1 now2 p g
  have hc := checkCollisions_sameSession env (Game.tickPlayer env p g)
    (Game.beforeCollisions env now1 now2 p g)
  have hcl := checkCollisions_lives_le env (Game.tickPlayer env p g)
    (Game.beforeCollisions env now1 now2 p g)
  have ha := afterCollisions_frame (Game.checkCollisions env (Game.tickPlayer env p g)
    (Game.beforeCollisions env now1 now2 p g))
  refine ⟨?_, ?_, ?_, ?_⟩
  · rw [ha.2.1]
    exact hcl.trans (le_of_eq hb.2.1)
  · rw [ha.2.2.2, hc.2.2.2, hb.2.2.2.2.2.2]
  · intro hr
    apply afterCollisions_rate
    rw [hc.2.2.1, hc.1, hb.2.2.2.1, hb.2.2.1]
    exact hr
  · intro hl hp
    have hcs := checkCollisions_score env (Game.tickPlayer env p g)
      (Game.beforeCollisions env now1 now2 p g) (beforeCollisions_points env now1 now2 p g hl hp)
    rw [ha.1, ha.2.2.1]
    exact ⟨(le_of_eq hb.1.symm).trans hcs.1, hcs.2⟩

theorem Inv.level_pos {g : Game} (h : Inv g) : 1 ≤ g.level := by
  have h1 : (0 : ℚ) ≤ (g.score : ℚ) / 500 :=
    div_nonneg (by exact_mod_cast h.score_nonneg) (by norm_num)
  have h2 : 0 ≤ Int.floor ((g.score : ℚ) / 500) := Int.floor_nonneg.mpr h1
  rw [h.level_eq]
  linarith

theorem listener_frame {g g1 : Game} (h : Listener g g1) :
    g1.score = g.score ∧ g1.lives = g.lives ∧ g1.level = g.level ∧
    g1.enemySpawnRate = g.enemySpawnRate ∧ g1.enemies = g.enemies ∧
    g1.gameRunning = g.gameRunning ∧ g1.log = g.log ∧
    (g.player.isSome = true → g1.player.isSome = true) := by
  cases h with
  | keydown k => exact ⟨rfl, rfl, rfl, rfl, rfl, rfl, rfl, id⟩
  | keyup k => exact ⟨rfl, rfl, rfl, rfl, rfl, rfl, rfl, id⟩
  | mousemove x y =>
    unfold Game.mousemove
    dsimp only
    split
    · split <;> simp_all
    · simp_all
  | mousedown x y =>
    unfold Game.mousedown
    split
    · split
      · split <;> simp_all
      · simp_all
    · simp_all
  | mouseup => exact ⟨rfl, rfl, rfl, rfl, rfl, rfl, rfl, id⟩
  | click env =>
    unfold Game.click
    split
    · split <;> simp_all
    · simp_all
  | touchstart env x y =>
    unfold Game.touchstart
    dsimp only
    split
    · split
      · split <;> simp_all
      · simp_all
    · simp_all
  | touchmove env x y =>
    unfold Game.touchmove
    dsimp only
    split
    · split <;> simp_all
    · simp_all
  | resizeCanvas w h => exact ⟨rfl, rfl, rfl, rfl, rfl, rfl, rfl, id⟩

theorem inv_init (w h : ℚ) : Inv (Game.init w h) := by
  refine ⟨by simp [Game.init], ?_, ?_, ?_, ?_⟩
  · norm_num [Game.init]
  · exact spawnRateOf_one.symm
  · intro e he
    simp [Game.init] at he
  · intro hr
    simp [Game.init] at hr

theorem inv_start {g : Game} (h : Inv g) : Inv g.start := by
  unfold Game.start
  split
  · exact h
  · exact ⟨h.score_nonneg, h.level_eq, h.rate_eq, h.points_nonneg, fun _ => rfl⟩

theorem inv_reset (g : Game) : Inv g.reset := by
  refine ⟨by simp [Game.reset], ?_, ?_, ?_, ?_⟩
  · norm_num [Game.reset]
  · exact spawnRateOf_one.symm
  · intro e he
    simp [Game.reset] at he
  · intro hr
    simp [Game.reset] at hr

theorem inv_listener {g g1 : Game} (h : Inv g) (hl : Listener g g1) : Inv g1 := by
  obtain ⟨h1, _, h3, h4, h5, h6, _, h8⟩ := listener_frame hl
  refine ⟨by rw [h1]; exact h.score_nonneg, by rw [h3, h1]; exact h.level_eq,
    by rw [h4, h3]; exact h.rate_eq, by rw [h5]; exact h.points_nonneg, ?_⟩
  intro hr
  exact h8 (h.player_of_running (by rw [← h6]; exact hr))

theorem inv_update {g g1 : Game} (env : Env) (now1 now2 : ℚ) (h : Inv g)
    (hu : Game.update env now1 now2 g = some g1) : Inv g1 := by
  cases hrun : g.gameRunning with
  | false =>
    rw [update_not_running env now1 now2 g hrun] at hu
    simp only [Option.some.injEq] at hu
    rw [← hu]
    exact h
  | true =>
    obtain ⟨p, hp⟩ := Option.isSome_iff_exists.mp (h.player_of_running hrun)
    rw [update_running env now1 now2 g p hrun hp] at hu
    simp only [Option.some.injEq] at hu
    have ht := tick_summary env now1 now2 g p
    have hlev : (0 : ℤ) ≤ g.level := by linarith [h.level_pos]
    have hs := ht.2.2.2 hlev h.points_nonneg
    rw [← hu]
    exact ⟨h.score_nonneg.trans hs.1, afterCollisions_level _, ht.2.2.1 h.rate_eq, hs.2,
      fun _ => by rw [ht.2.1]; rfl⟩

/-- Every reachable engine state satisfies the invariant. -/
theorem reachable_inv {g : Game} (h : Reachable g) : Inv g := by
  induction h with
  | init w h => exact inv_init w h
  | start _ ih => exact inv_start ih
  | reset _ _ => exact inv_reset _
  | update env now1 now2 _ hu ih => exact inv_update env now1 now2 ih hu
  | listener _ hl ih => exact inv_listener ih hl

/-! ### The player pass of `checkCollisions` -/

/-- The iteration bound of `checkCollisions` is enough: one more iteration changes
nothing once `i + fuel` has reached the length of the array. -/
theorem enemyPlayerLoop_fuel (env : Env) (p : Player) :
    ∀ (fuel i : ℕ) (g : Game), g.enemies.length ≤ i + fuel →
      Game.enemyPlayerLoop env p (fuel + 1) i g = Game.enemyPlayerLoop env p fuel i g := by
  intro fuel
  induction fuel with
  | zero =>
    intro i g h
    have hn : g.enemies[i]? = none := List.getElem?_eq_none (by omega)
    simp only [Game.enemyPlayerLoop, hn]
  | succ n ih =>
    intro i g h
    rw [Game.enemyPlayerLoop]
    conv_rhs => rw [Game.enemyPlayerLoop]
    split
    · rfl
    · split
      · apply ih
        have := List.length_eraseIdx_le g.enemies i
        rw [playerHit_enemies]
        omega
      · apply ih
        omega

theorem enemyPlayerLoop_no_overlap (env : Env) (p : Player) :
    ∀ (fuel i : ℕ) (g : Game), (∀ a ∈ g.enemies, p.collidesWith a = false) →
      Game.enemyPlayerLoop env p fuel i g = g := by
  intro fuel
  induction fuel with
  | zero => intro i g _; rfl
  | succ n ih =>
    intro i g h
    rw [Game.enemyPlayerLoop]
    split
    · rfl
    · rename_i e he
      rw [if_neg (by rw [h e (List.getElem?_mem he)]; simp)]
      exact ih _ g h

theorem enemyPlayerLoop_one_overlap (env : Env) (p : Player) (pre post : List Enemy) (e : Enemy)
    (hpre : ∀ a ∈ pre, p.collidesWith a = false) (he : p.collidesWith e = true)
    (hpost : ∀ a ∈ post, p.collidesWith a = false) :
    ∀ (k fuel i : ℕ) (g : Game), i + k = pre.length → k < fuel →
      g.enemies = pre ++ e :: post →
      Game.enemyPlayerLoop env p fuel i g = Game.playerHit env p g pre.length := by
  intro k
  induction k with
  | zero =>
    intro fuel i g hi hf hg
    obtain ⟨n, rfl⟩ : ∃ n, fuel = n + 1 := ⟨fuel - 1, by omega⟩
    have hi' : i = pre.length := by omega
    subst hi'
    have hget : g.enemies[pre.length]? = some e := by
      rw [hg, List.getElem?_append_right (le_refl _)]
      simp
    rw [Game.enemyPlayerLoop]
    simp only [hget, he, if_true]
    apply enemyPlayerLoop_no_overlap
    intro a ha
    rw [playerHit_enemies, hg, List.eraseIdx_append_of_length_le (le_refl _)] at ha
    simp only [Nat.sub_self, List.eraseIdx_cons_zero, List.mem_append] at ha
    rcases ha with ha | ha
    · exact hpre a ha
    · exact hpost a ha
  | succ k ih =>
    intro fuel i g hi hf hg
    obtain ⟨n, rfl⟩ : ∃ n, fuel = n + 1 := ⟨fuel - 1, by omega⟩
    have hlt : i < pre.length := by omega
    have hget : g.enemies[i]? = some (pre[i]) := by
      rw [hg, List.getElem?_append_left hlt]
      exact List.getElem?_eq_getElem hlt
    rw [Game.enemyPlayerLoop]
    simp only [hget]
    rw [if_neg (by rw [hpre _ (List.getElem_mem hlt)]; simp)]
    exact ih n (i + 1) g (by omega) (by omega) hg

theorem split_of_countP_eq_one {α : Type} (q : α → Bool) :
    ∀ (l : List α), l.countP q = 1 →
      ∃ pre e post, l = pre ++ e :: post ∧ (∀ a ∈ pre, q a = false) ∧ q e = true ∧
        (∀ a ∈ post, q a = false) := by
  intro l
  induction l with
  | nil => intro h; simp at h
  | cons a l ih =>
    intro h
    rw [List.countP_cons] at h
    cases hq : q a with
    | true =>
      rw [hq] at h
      simp only [if_true, add_left_eq_self] at h
      rw [List.countP_eq_zero] at h
      refine ⟨[], a, l, rfl, by simp, hq, ?_⟩
      intro b hb
      simpa using h b hb
    | false =>
      rw [hq] at h
      simp only [Bool.false_eq_true, if_false, add_zero] at h
      obtain ⟨pre, e, post, h1, h2, h3, h4⟩ := ih h
      refine ⟨a :: pre, e, post, by rw [h1]; rfl, ?_, h3, h4⟩
      intro b hb
      rcases List.mem_cons.mp hb with hb | hb
      · rw [hb]; exact hq
      · exact h2 b hb

/-- With exactly one enemy overlapping the player, the player pass costs exactly one life
and removes one enemy. -/
theorem enemyPlayerLoop_countP_one (env : Env) (p : Player) (g : Game)
    (h : g.enemies.countP (fun e => p.collidesWith e) = 1) :
    ∃ i, Game.enemyPlayerLoop env p g.enemies.length 0 g = Game.playerHit env p g i := by
  obtain ⟨pre, e, post, h1, h2, h3, h4⟩ := split_of_countP_eq_one _ g.enemies h
  refine ⟨pre.length, ?_⟩
  apply enemyPlayerLoop_one_overlap env p pre post e h2 h3 h4 pre.length _ 0 g (by omega) _ h1
  rw [h1]
  simp

/-! ### The log of a tick -/

theorem checkCollisions_eq (env : Env) (p : Player) (g : Game) :
    Game.checkCollisions env p g =
      { Game.enemyPlayerLoop env p (Game.bulletEnemyLoop env g.bullets.length g).enemies.length 0
          (Game.bulletEnemyLoop env g.bullets.length g) with
        log := g.log ++
          [Event.onScoreChange (Game.checkCollisions env p g).score,
            Event.onLivesChange (Game.checkCollisions env p g).lives,
            Event.onLevelChange (Game.checkCollisions env p g).level] } := by
  have h1 := bulletEnemyLoop_sameSession env g.bullets.length g
  have h2 := enemyPlayerLoop_sameSession env p
    (Game.bulletEnemyLoop env g.bullets.length g).enemies.length 0
    (Game.bulletEnemyLoop env g.bullets.length g)
  simp only [Game.checkCollisions]
  rw [h2.log, h1.log]

theorem checkCollisions_count_gameOver (env : Env) (p : Player) (g : Game) :
    (Game.checkCollisions env p g).log.count Event.onGameOver = g.log.count Event.onGameOver := by
  rw [checkCollisions_eq]
  simp

theorem later_not_running {g0 g : Game} (h0 : g0.gameRunning = false)
    (h : LaterWithoutStart g0 g) : g.gameRunning = false := by
  induction h with
  | refl => exact h0
  | reset _ _ => rfl
  | update env now1 now2 _ hu ih =>
    rw [update_not_running env now1 now2 _ ih] at hu
    simp only [Option.some.injEq] at hu
    rw [← hu]
    exact ih
  | listener _ hl ih =>
    rw [(listener_frame hl).2.2.2.2.2.1]
    exact ih

/-! ### C5: the last life -/

/-- C5: in a running engine with one life left, when exactly one enemy overlaps the player
as `checkCollisions` enters its loop over the enemies, the tick returns with
`lives = 0`, the engine not running and one more `onGameOver` in the log; in
every state that follows without a call of `start`, the engine is not running
and a tick of `update` returns the state unchanged (no enemy spawned, no
callback invoked). -/
theorem last_life_game_over (env : Env) (now1 now2 : ℚ) (g : Game) (p : Player)
    (hrun : g.gameRunning = true) (hp : g.player = some p) (hl : g.lives = 1)
    (hone : (Game.atPlayerPass env now1 now2 p g).enemies.countP
      (fun e => (Game.tickPlayer env p g).collidesWith e) = 1) :
    ∃ g1, Game.update env now1 now2 g = some g1 ∧ g1.lives = 0 ∧ g1.gameRunning = false ∧
      g1.log.count Event.onGameOver = g.log.count Event.onGameOver + 1 ∧
      ∀ g2, LaterWithoutStart g1 g2 →
        g2.gameRunning = false ∧
        ∀ (env2 : Env) (t1 t2 : ℚ), Game.update env2 t1 t2 g2 = some g2 := by
  refine ⟨_, update_running env now1 now2 g p hrun hp, ?_⟩
  obtain ⟨i, hi⟩ := enemyPlayerLoop_countP_one env (Game.tickPlayer env p g)
    (Game.atPlayerPass env now1 now2 p g) hone
  have hb := beforeCollisions_frame env now1 now2 p g
  have hlives : (Game.checkCollisions env (Game.tickPlayer env p g)
      (Game.beforeCollisions env now1 now2 p g)).lives = 0 := by
    have h1 := bulletEnemyLoop_lives env (Game.beforeCollisions env now1 now2 p g).bullets.length
      (Game.beforeCollisions env now1 now2 p g)
    simp only [Game.checkCollisions]
    unfold Game.atPlayerPass at hi
    rw [hi, playerHit_lives, h1, hb.2.1, hl]
    rfl
  have hover := (afterCollisions_gameOver (Game.checkCollisions env (Game.tickPlayer env p g)
      (Game.beforeCollisions env now1 now2 p g))).1 (le_of_eq hlives)
  have hfr := afterCollisions_frame (Game.checkCollisions env (Game.tickPlayer env p g)
      (Game.beforeCollisions env now1 now2 p g))
  refine ⟨by rw [hfr.2.1]; exact hlives, hover.1, ?_, ?_⟩
  · rw [hover.2, List.count_append, checkCollisions_count_gameOver, hb.2.2.2.2.2.1]
    simp
  · intro g2 h2
    have := later_not_running hover.1 h2
    exact ⟨this, fun env2 t1 t2 => update_not_running env2 t1 t2 g2 this⟩


/-! ### Frames of a tick -/

theorem sameInput_refl (g : Game) : SameInput g g :=
  ⟨Eq.refl _, Eq.refl _, Eq.refl _, Eq.refl _, Eq.refl _, Eq.refl _, Eq.refl _⟩

theorem sameInput_trans {a b c : Game} (h1 : SameInput a b) (h2 : SameInput b c) :
    SameInput a c :=
  ⟨h2.width.trans h1.width, h2.height.trans h1.height, h2.keys.trans h1.keys,
    h2.mouseX.trans h1.mouseX, h2.mouseY.trans h1.mouseY, h2.isDragging.trans h1.isDragging,
    h2.lastEnemySpawn.trans h1.lastEnemySpawn⟩

theorem createExplosion_sameInput (env : Env) (g : Game) (x y : ℚ) (c : String) :
    SameInput g (Game.createExplosion env g x y c) :=
  ⟨Eq.refl _, Eq.refl _, Eq.refl _, Eq.refl _, Eq.refl _, Eq.refl _, Eq.refl _⟩

theorem bulletHit_sameInput (env : Env) (g : Game) (i j : ℕ) (e : Enemy) :
    SameInput g (Game.bulletHit env g i j e) := by
  unfold Game.bulletHit
  dsimp only
  split
  · exact ⟨Eq.refl _, Eq.refl _, Eq.refl _, Eq.refl _, Eq.refl _, Eq.refl _, Eq.refl _⟩
  · exact ⟨Eq.refl _, Eq.refl _, Eq.refl _, Eq.refl _, Eq.refl _, Eq.refl _, Eq.refl _⟩

theorem playerHit_sameInput (env : Env) (p : Player) (g : Game) (i : ℕ) :
    SameInput g (Game.playerHit env p g i) :=
  ⟨Eq.refl _, Eq.refl _, Eq.refl _, Eq.refl _, Eq.refl _, Eq.refl _, Eq.refl _⟩

theorem bulletEnemyLoop_sameInput (env : Env) (n : ℕ) (g : Game) :
    SameInput g (Game.bulletEnemyLoop env n g) :=
  bulletEnemyLoop_induct env (fun g1 => SameInput g g1)
    (fun g1 i j e h _ => sameInput_trans h (bulletHit_sameInput env g1 i j e)) n g
    (sameInput_refl g)

/-- A tick without a spawn, before the collisions. -/
theorem beforeCollisions_noSpawn (env : Env) (now1 now2 : ℚ) (p : Player) (g : Game)
    (h : ¬ fl (now1 - g.lastEnemySpawn) > fl (g.enemySpawnRate * 1000)) :
    Game.beforeCollisions env now1 now2 p g =
      { g with
        player := some (Game.tickPlayer env p g),
        bullets := updateBullets g.width g.height g.bullets,
        enemies := updateEnemies env g.enemies } := by
  unfold Game.beforeCollisions
  dsimp only
  rw [if_neg h]

/-- A tick with a spawn, before the collisions. -/
theorem beforeCollisions_spawn (env : Env) (now1 now2 : ℚ) (p : Player) (g : Game)
    (h : fl (now1 - g.lastEnemySpawn) > fl (g.enemySpawnRate * 1000)) :
    Game.beforeCollisions env now1 now2 p g =
      { g with
        player := some (Game.tickPlayer env p g),
        bullets := updateBullets g.width g.height g.bullets,
        enemies := updateEnemies env
          (g.enemies ++ [Enemy.new env (if env.random g.draws > 0.5 then -40 else g.width + 40)
            (env.random (g.draws + 1) * (g.height * 0.7)) g.level g.width g.height]),
        lastEnemySpawn := now2,
        draws := g.draws + 2 } := by
  unfold Game.beforeCollisions Game.spawnEnemy
  dsimp only
  rw [if_pos h]
  simp

/-- The collisions of a tick with no bullet and no enemy on the player: the callbacks only. -/
theorem checkCollisions_quiet (env : Env) (p : Player) (g : Game) (hb : g.bullets = [])
    (he : ∀ a ∈ g.enemies, p.collidesWith a = false) :
    Game.checkCollisions env p g =
      { g with
        log := g.log ++
          [Event.onScoreChange g.score, Event.onLivesChange g.lives,
            Event.onLevelChange g.level] } := by
  unfold Game.checkCollisions
  dsimp only
  have h1 : Game.bulletEnemyLoop env g.bullets.length g = g := by
    rw [hb]
    rfl
  rw [h1, enemyPlayerLoop_no_overlap env p _ _ g he]

/-- The end of a tick when the level stands and a life is left: the particle pass only. -/
theorem afterCollisions_steady (g : Game)
    (hl : g.level = Int.floor ((g.score : ℚ) / 500) + 1) (hv : 0 < g.lives) :
    g.afterCollisions = { g with particles := updateParticles g.particles } := by
  have hd : Game.updateDifficulty { g with particles := updateParticles g.particles } =
      { g with particles := updateParticles g.particles } := by
    unfold Game.updateDifficulty
    dsimp only
    rw [if_neg (by simp [hl])]
  unfold Game.afterCollisions
  dsimp only
  rw [hd, if_neg (by simpa using hv)]

theorem tickPlayer_scene (px py : ℚ) (g : Game) (hw : g.width = 800) (hh : g.height = 600)
    (hk : g.keys = Keys.released) (h1 : 20 ≤ px) (h2 : px ≤ 780) (h3 : 20 ≤ py)
    (h4 : py ≤ 580) :
    Game.tickPlayer env1 (Player.new px py) g = Player.new px py := by
  have a1 : max (20 : ℚ) (min (800 - 20) px) = px := by
    rw [min_eq_right (by linarith), max_eq_right h1]
  have a2 : max (20 : ℚ) (min (600 - 20) py) = py := by
    rw [min_eq_right (by linarith), max_eq_right h3]
  simp [Game.tickPlayer, Player.update, Player.aimAt, Player.new, env1, hw, hh, hk,
    Keys.released, a1, a2]

/-! ### The session: frames without a hit -/

theorem updateEnemies_singleton (env : Env) (e : Enemy) (h : 0 < e.health) :
    updateEnemies env [e] = [e.update env] := by
  have h1 : 0 < (e.update env).health := h
  simp [updateEnemies, h1]

theorem scene_level (sc : ℤ) (h0 : 0 ≤ sc) (h5 : sc < 500) :
    (1 : ℤ) = Int.floor ((sc : ℚ) / 500) + 1 := by
  have : Int.floor ((sc : ℚ) / 500) = 0 := by
    rw [Int.floor_eq_iff]
    have a : (0 : ℚ) ≤ sc := by exact_mod_cast h0
    have b : (sc : ℚ) < 500 := by exact_mod_cast h5
    constructor
    · simp only [Int.cast_zero]
      positivity
    · rw [div_lt_iff₀ (by norm_num)]
      simpa using b
  rw [this]
  rfl

/-- A frame of the session with one enemy away from the ship: the enemy moves on. -/
theorem scene_quiet_tick (now : ℚ) (g : Game) (sc lv : ℤ) (last px py : ℚ) (e : Enemy)
    (h : Scene g sc lv last px py [] [e])
    (h1 : 20 ≤ px) (h2 : px ≤ 780) (h3 : 20 ≤ py) (h4 : py ≤ 580)
    (hs0 : 0 ≤ sc) (hs5 : sc < 500) (hlv : 0 < lv)
    (hnow : ¬ fl (now - last) > fl (2 * 1000)) (hh : 0 < e.health)
    (hfar : (Player.new px py).collidesWith (e.update env1) = false) :
    Scene (tick now g) sc lv last px py [] [e.update env1] := by
  have hu := update_running env1 now now g _ h.running h.player
  have hb := beforeCollisions_noSpawn env1 now now (Player.new px py) g
    (by rw [h.last, h.rate]; exact hnow)
  rw [tickPlayer_scene px py g h.width h.height h.keys h1 h2 h3 h4, h.bullets, h.enemies,
    updateEnemies_singleton env1 e hh] at hb
  have hub : updateBullets g.width g.height [] = [] := rfl
  rw [hub] at hb
  rw [tickPlayer_scene px py g h.width h.height h.keys h1 h2 h3 h4, hb,
    checkCollisions_quiet env1 (Player.new px py) _ rfl
      (by intro a ha; simp only [List.mem_singleton] at ha; rw [ha]; exact hfar),
    afterCollisions_steady _ (by show g.level = _; rw [h.level, h.score]; exact scene_level sc hs0 hs5)
      (by show 0 < g.lives; rw [h.lives]; exact hlv)] at hu
  unfold tick
  rw [hu]
  exact ⟨h.width, h.height, rfl, rfl, rfl, h.score, h.level, h.lives, h.running, h.rate, h.last,
    h.keys, h.mouseX, h.mouseY, h.dragging⟩

/-- The frame of the session that spawns the enemy. -/
theorem scene_spawn_tick (now : ℚ) (g : Game) (sc lv : ℤ) (last : ℚ)
    (h : Scene g sc lv last 400 520 [] [])
    (hs0 : 0 ≤ sc) (hs5 : sc < 500) (hlv : 0 < lv)
    (hnow : fl (now - last) > fl (2 * 1000)) :
    Scene (tick now g) sc lv now 400 520 [] [flyingEnemy 1] := by
  have hu := update_running env1 now now g _ h.running h.player
  have hb := beforeCollisions_spawn env1 now now (Player.new 400 520) g
    (by rw [h.last, h.rate]; exact hnow)
  have hnew : updateEnemies env1
      (g.enemies ++ [Enemy.new env1 (if env1.random g.draws > 0.5 then -40 else g.width + 40)
        (env1.random (g.draws + 1) * (g.height * 0.7)) g.level g.width g.height]) =
      [flyingEnemy 1] := by
    have e1 : (if env1.random g.draws > 0.5 then (-40 : ℚ) else g.width + 40) = -40 := by
      rw [if_pos (by norm_num [env1])]
    have e2 : env1.random (g.draws + 1) * (g.height * 0.7) = 300 := by
      rw [h.height]
      norm_num [env1]
    rw [h.enemies, e1, e2, h.level, h.width, h.height, List.nil_append,
      updateEnemies_singleton env1 _ (by norm_num [Enemy.new])]
    norm_num [flyingEnemy, Enemy.update, Enemy.new, env1]
  rw [tickPlayer_scene 400 520 g h.width h.height h.keys (by norm_num) (by norm_num)
    (by norm_num) (by norm_num), h.bullets, hnew] at hb
  have hub : updateBullets g.width g.height [] = [] := rfl
  rw [hub] at hb
  have hfar : (Player.new 400 520).collidesWith (flyingEnemy 1) = false := by
    apply player_collides_of_ge
    right
    norm_num [flyingEnemy, Enemy.new, Player.new]
  rw [tickPlayer_scene 400 520 g h.width h.height h.keys (by norm_num) (by norm_num)
      (by norm_num) (by norm_num), hb,
    checkCollisions_quiet env1 (Player.new 400 520) _ rfl
      (by intro a ha; simp only [List.mem_singleton] at ha; rw [ha]; exact hfar),
    afterCollisions_steady _ (by show g.level = _; rw [h.level, h.score]; exact scene_level sc hs0 hs5)
      (by show 0 < g.lives; rw [h.lives]; exact hlv)] at hu
  unfold tick
  rw [hu]
  exact ⟨h.width, h.height, rfl, rfl, rfl, h.score, h.level, h.lives, h.running, h.rate, rfl,
    h.keys, h.mouseX, h.mouseY, h.dragging⟩

theorem flyingEnemy_update (k : ℕ) : (flyingEnemy k).update env1 = flyingEnemy (k + 1) := by
  simp only [flyingEnemy, Enemy.update, Enemy.new, env1]
  congr 1
  · push_cast
    norm_num
    ring
  · norm_num

theorem flyingEnemy_health (k : ℕ) : (flyingEnemy k).health = 1 := by
  norm_num [flyingEnemy, Enemy.new]

theorem flyingEnemy_far (k : ℕ) : (Player.new 400 520).collidesWith (flyingEnemy k) = false := by
  apply player_collides_of_ge
  right
  have h1 : ((1 + 2 ^ (-50 : ℤ) : ℚ) * (20 + 16)) ^ 2 ≤ 220 * 220 := by norm_num
  have h2 : (0 : ℚ) ≤ (400 - (-40 + 9 / 5 * (k : ℚ))) * (400 - (-40 + 9 / 5 * (k : ℚ))) :=
    mul_self_nonneg _
  have e : (flyingEnemy k).radius = 16 := by norm_num [flyingEnemy, Enemy.new]
  have ex : (flyingEnemy k).x = -40 + 9 / 5 * (k : ℚ) := rfl
  have ey : (flyingEnemy k).y = 300 := rfl
  have er : (Player.new 400 520).radius = 20 := rfl
  have px : (Player.new 400 520).x = 400 := rfl
  have py : (Player.new 400 520).y = 520 := rfl
  rw [e, ex, ey, er, px, py]
  have h3 : ((520 : ℚ) - 300) * (520 - 300) = 220 * 220 := by norm_num
  rw [h3]
  linarith

theorem no_spawn_same_clock (now : ℚ) : ¬ fl (now - now) > fl (2 * 1000) := by
  rw [sub_self, fl_zero, show (2 : ℚ) * 1000 = 2000 from by norm_num, fl_2000]
  norm_num

/-- The frames of the session in which the enemy flies in. -/
theorem scene_fly (now : ℚ) (g : Game) (sc lv : ℤ) (last : ℚ)
    (h : Scene g sc lv last 400 520 [] [])
    (hs0 : 0 ≤ sc) (hs5 : sc < 500) (hlv : 0 < lv)
    (hnow : fl (now - last) > fl (2 * 1000)) (k : ℕ) :
    Scene ((tick now)^[k + 1] g) sc lv now 400 520 [] [flyingEnemy (k + 1)] := by
  induction k with
  | zero => exact scene_spawn_tick now g sc lv last h hs0 hs5 hlv hnow
  | succ n ih =>
    rw [Function.iterate_succ_apply']
    have := scene_quiet_tick now _ sc lv now 400 520 (flyingEnemy (n + 1)) ih (by norm_num)
      (by norm_num) (by norm_num) (by norm_num) hs0 hs5 hlv (no_spawn_same_clock now)
      (by rw [flyingEnemy_health]; norm_num)
      (by rw [flyingEnemy_update]; exact flyingEnemy_far _)
    rw [flyingEnemy_update] at this
    exact this

theorem scene_flyIn (now : ℚ) (g : Game) (sc lv : ℤ) (last : ℚ)
    (h : Scene g sc lv last 400 520 [] [])
    (hs0 : 0 ≤ sc) (hs5 : sc < 500) (hlv : 0 < lv)
    (hnow : fl (now - last) > fl (2 * 1000)) :
    Scene (flyIn now g) sc lv now 400 520 [] [flyingEnemy 40] :=
  scene_fly now g sc lv last h hs0 hs5 hlv hnow 39

theorem scene_start :
    Scene ((Game.init 800 600).start.mousemove 400 520) 0 3 0 400 520 [] [] := by
  refine ⟨rfl, rfl, ?_, rfl, rfl, rfl, rfl, rfl, rfl, rfl, rfl, rfl, rfl, rfl, rfl⟩
  norm_num [Game.mousemove, Game.start, Game.init, Player.new]

/-- The drag gesture from the ship to `(qx, qy)` in the session. -/
theorem scene_drag (g : Game) (sc lv : ℤ) (last px py qx qy : ℚ) (bs : List Bullet)
    (es : List Enemy) (h : Scene g sc lv last px py bs es) :
    Scene (dragTo g px py qx qy) sc lv last qx qy bs es := by
  have hov : circlesOverlap px py (Player.new px py).radius (Player.new px py).x
      (Player.new px py).y 20 = true := by
    apply circlesOverlap_of_lt
    · norm_num [Player.new]
    · norm_num [Player.new]
  have hd : g.mousedown px py =
      { g with isDragging := true, dragStartX := px, dragStartY := py } := by
    unfold Game.mousedown
    rw [h.player]
    simp only [h.running, if_true]
    rw [if_pos hov]
  have hm : (g.mousedown px py).mousemove qx qy =
      { g with isDragging := true, dragStartX := px, dragStartY := py,
               mouseX := qx, mouseY := qy,
               player := some { Player.new px py with x := qx, y := qy } } := by
    rw [hd]
    unfold Game.mousemove
    simp [h.player, h.running]
  unfold dragTo
  rw [hm]
  exact ⟨h.width, h.height, rfl, h.bullets, h.enemies, h.score, h.level, h.lives, h.running,
    h.rate, h.last, h.keys, rfl, rfl, rfl⟩

theorem click_scene (g : Game) (sc lv : ℤ) (last px py : ℚ) (bs : List Bullet)
    (es : List Enemy) (h : Scene g sc lv last px py bs es) :
    Game.click env1 g = { g with bullets := g.bullets ++ [Bullet.new env1 px py 0] } := by
  unfold Game.click
  rw [h.player]
  simp [h.running, h.dragging, Player.new]

/-- Clicks in the session: one bullet each, from the ship to the right. -/
theorem scene_clicks (g : Game) (sc lv : ℤ) (last px py : ℚ) (bs : List Bullet)
    (es : List Enemy) (h : Scene g sc lv last px py bs es) (n : ℕ) :
    Scene (clicks n g) sc lv last px py (bs ++ List.replicate n (Bullet.new env1 px py 0))
      es := by
  induction n with
  | zero => simpa [clicks] using h
  | succ k ih =>
    unfold clicks at ih ⊢
    rw [Function.iterate_succ_apply', click_scene _ sc lv last px py _ es ih]
    refine ⟨ih.width, ih.height, ih.player, ?_, ih.enemies, ih.score, ih.level, ih.lives,
      ih.running, ih.rate, ih.last, ih.keys, ih.mouseX, ih.mouseY, ih.dragging⟩
    show ((Game.click env1)^[k] g).bullets ++ [Bullet.new env1 px py 0] = _
    rw [ih.bullets, List.replicate_succ', List.append_assoc]

/-! ### The session: the frame of the volley -/

theorem updateBullets_replicate (w h : ℚ) (b : Bullet) (n : ℕ)
    (hb : 0 < b.update.x ∧ b.update.x < w ∧ 0 < b.update.y ∧ b.update.y < h) :
    updateBullets w h (List.replicate n b) = List.replicate n b.update := by
  induction n with
  | zero => rfl
  | succ k ih =>
    unfold updateBullets at ih ⊢
    rw [List.replicate_succ, List.filterMap_cons, ih]
    simp [hb.1, hb.2.1, hb.2.2.1, hb.2.2.2, List.replicate_succ]

/-- The bullet pass when every bullet overlaps the one enemy, of health at most 1: every
bullet is spliced out, the enemy stays, and every hit scores its points. -/
theorem bulletEnemyLoop_all_hit (env : Env) :
    ∀ (n : ℕ) (g : Game) (e : Enemy), g.bullets.length = n →
      (∀ b ∈ g.bullets, b.collidesWith e = true) → g.enemies = [e] → e.health ≤ 1 →
      (Game.bulletEnemyLoop env n g).bullets = [] ∧
      (Game.bulletEnemyLoop env n g).enemies = [{ e with health := e.health - n }] ∧
      (Game.bulletEnemyLoop env n g).score = g.score + n * e.points := by
  intro n
  induction n with
  | zero =>
    intro g e hl _ he _
    refine ⟨List.length_eq_zero.mp hl, ?_, ?_⟩
    · show g.enemies = _
      rw [he]
      simp
    · show g.score = _
      simp
  | succ k ih =>
    intro g e hl hb he hh
    have hlt : k < g.bullets.length := by omega
    have hget : g.bullets[k]? = some g.bullets[k] := List.getElem?_eq_getElem hlt
    have hcol : (g.bullets[k]).collidesWith e = true := hb _ (List.getElem_mem hlt)
    have hfind : findHit g.bullets[k] g.enemies g.enemies.length = some 0 := by
      rw [he]
      simp [findHit, hcol]
    have hen : g.enemies[0]? = some e := by rw [he]; rfl
    rw [Game.bulletEnemyLoop]
    simp only [hget, hfind, hen]
    have hhit : Game.bulletHit env g k 0 e =
        Game.createExplosion env
          { g with enemies := [e.takeDamage], bullets := g.bullets.eraseIdx k,
                   score := g.score + e.takeDamage.points }
          e.takeDamage.x e.takeDamage.y "#00ff88" := by
      unfold Game.bulletHit
      dsimp only
      rw [if_pos (by show e.health - 1 ≤ 0; omega), he]
      rfl
    rw [hhit]
    have := ih (Game.createExplosion env
          { g with enemies := [e.takeDamage], bullets := g.bullets.eraseIdx k,
                   score := g.score + e.takeDamage.points }
          e.takeDamage.x e.takeDamage.y "#00ff88") e.takeDamage
      (by
        show (g.bullets.eraseIdx k).length = k
        rw [List.length_eraseIdx_of_lt hlt]
        omega)
      (by
        intro b hb1
        exact hb b ((List.eraseIdx_sublist g.bullets k).subset hb1))
      rfl
      (by show e.health - 1 ≤ 1; omega)
    refine ⟨this.1, ?_, ?_⟩
    · rw [this.2.1]
      simp only [Enemy.takeDamage]
      congr 2
      push_cast
      ring
    · rw [this.2.2]
      show g.score + e.points + (k : ℤ) * e.points = g.score + ((k + 1 : ℕ) : ℤ) * e.points
      push_cast
      ring

/-- The collisions of the volley: every bullet hits the one enemy, which then hits the ship. -/
theorem checkCollisions_volley (env : Env) (p : Player) (g : Game) (e : Enemy)
    (hb : ∀ b ∈ g.bullets, b.collidesWith e = true) (he : g.enemies = [e])
    (hh : e.health ≤ 1) (hp : p.collidesWith e = true) :
    (Game.checkCollisions env p g).bullets = [] ∧
    (Game.checkCollisions env p g).enemies = [] ∧
    (Game.checkCollisions env p g).score = g.score + g.bullets.length * e.points ∧
    (Game.checkCollisions env p g).lives = g.lives - 1 ∧
    SameInput g (Game.checkCollisions env p g) := by
  obtain ⟨h1, h2, h3⟩ := bulletEnemyLoop_all_hit env g.bullets.length g e rfl hb he hh
  have hs := bulletEnemyLoop_sameInput env g.bullets.length g
  have hl := bulletEnemyLoop_lives env g.bullets.length g
  have hloop : Game.enemyPlayerLoop env p
      (Game.bulletEnemyLoop env g.bullets.length g).enemies.length 0
      (Game.bulletEnemyLoop env g.bullets.length g) =
      Game.playerHit env p (Game.bulletEnemyLoop env g.bullets.length g) 0 := by
    rw [h2]
    show Game.enemyPlayerLoop env p 1 0 _ = _
    rw [Game.enemyPlayerLoop]
    have hc : p.collidesWith { e with health := e.health - (g.bullets.length : ℤ) } = true := hp
    simp only [h2, List.getElem?_cons_zero, hc, if_true]
    rfl
  unfold Game.checkCollisions
  dsimp only
  rw [hloop]
  refine ⟨h1, ?_, h3, ?_, ?_⟩
  · show (Game.bulletEnemyLoop env g.bullets.length g).enemies.eraseIdx 0 = []
    rw [h2]
    rfl
  · show (Game.bulletEnemyLoop env g.bullets.length g).lives - 1 = g.lives - 1
    rw [hl]
  · exact ⟨hs.width, hs.height, hs.keys, hs.mouseX, hs.mouseY, hs.isDragging,
      hs.lastEnemySpawn⟩

theorem afterCollisions_sameInput (g : Game) :
    SameInput g g.afterCollisions ∧ g.afterCollisions.bullets = g.bullets := by
  unfold Game.afterCollisions Game.updateDifficulty
  dsimp only
  split <;> split <;>
    exact ⟨⟨Eq.refl _, Eq.refl _, Eq.refl _, Eq.refl _, Eq.refl _, Eq.refl _, Eq.refl _⟩,
      Eq.refl _⟩

theorem volley_bullet_hits :
    (Bullet.new env1 25 300 0).update.collidesWith (flyingEnemy 41) = true := by
  apply bullet_collides_of_lt <;>
    norm_num [Bullet.new, Bullet.update, env1, flyingEnemy, Enemy.new]

theorem volley_enemy_hits : (Player.new 25 300).collidesWith (flyingEnemy 41) = true := by
  apply player_collides_of_lt <;> norm_num [Player.new, flyingEnemy, Enemy.new]

/-- The frame of the session after the volley: every one of the `n` bullets scores the 10
points of the enemy, and the enemy costs a life. -/
theorem scene_volley (now : ℚ) (g : Game) (sc lv : ℤ) (last : ℚ) (n : ℕ)
    (h : Scene g sc lv last 25 300 (List.replicate n (Bullet.new env1 25 300 0))
      [flyingEnemy 40])
    (hnow : ¬ fl (now - last) > fl (2 * 1000)) :
    ∃ g1, Game.update env1 now now g = some g1 ∧ g1.score = sc + 10 * n ∧
      g1.lives = lv - 1 ∧ g1.bullets = [] ∧ g1.enemies = [] ∧
      g1.player = some (Player.new 25 300) ∧ SameInput g g1 ∧
      g1.level = Int.floor ((g1.score : ℚ) / 500) + 1 ∧
      g1.enemySpawnRate = spawnRateOf g1.level ∧
      (0 < lv - 1 → g1.gameRunning = true) := by
  have hu := update_running env1 now now g _ h.running h.player
  have hb : Game.beforeCollisions env1 now now (Player.new 25 300) g =
      { g with
        player := some (Player.new 25 300),
        bullets := List.replicate n (Bullet.new env1 25 300 0).update,
        enemies := [flyingEnemy 41] } := by
    rw [beforeCollisions_noSpawn env1 now now (Player.new 25 300) g
        (by rw [h.last, h.rate]; exact hnow),
      tickPlayer_scene 25 300 g h.width h.height h.keys (by norm_num) (by norm_num)
        (by norm_num) (by norm_num), h.bullets, h.enemies,
      updateBullets_replicate g.width g.height _ n
        (by rw [h.width, h.height]; norm_num [Bullet.new, Bullet.update, env1]),
      updateEnemies_singleton env1 _ (by rw [flyingEnemy_health]; norm_num),
      flyingEnemy_update]
  rw [tickPlayer_scene 25 300 g h.width h.height h.keys (by norm_num) (by norm_num)
      (by norm_num) (by norm_num), hb] at hu
  have hv := checkCollisions_volley env1 (Player.new 25 300)
    { g with
      player := some (Player.new 25 300),
      bullets := List.replicate n (Bullet.new env1 25 300 0).update,
      enemies := [flyingEnemy 41] }
    (flyingEnemy 41)
    (by
      intro b hb1
      rw [List.eq_of_mem_replicate hb1]
      exact volley_bullet_hits)
    rfl (by rw [flyingEnemy_health]) volley_enemy_hits
  have hss := checkCollisions_sameSession env1 (Player.new 25 300)
    { g with
      player := some (Player.new 25 300),
      bullets := List.replicate n (Bullet.new env1 25 300 0).update,
      enemies := [flyingEnemy 41] }
  generalize Game.checkCollisions env1 (Player.new 25 300)
    { g with
      player := some (Player.new 25 300),
      bullets := List.replicate n (Bullet.new env1 25 300 0).update,
      enemies := [flyingEnemy 41] } = cc at hu hv hss
  obtain ⟨v1, v2, v3, v4, v5⟩ := hv
  obtain ⟨s1, s2, s3, s4⟩ := hss
  have v3' : cc.score = sc + 10 * n := by
    rw [v3]
    show g.score + ((List.replicate n (Bullet.new env1 25 300 0).update).length : ℤ) *
      (flyingEnemy 41).points = _
    rw [List.length_replicate, h.score]
    have : (flyingEnemy 41).points = 10 := by norm_num [flyingEnemy, Enemy.new]
    rw [this]
    ring
  have v4' : cc.lives = lv - 1 := by
    rw [v4]
    show g.lives - 1 = _
    rw [h.lives]
  have ha := afterCollisions_frame cc
  have hi := afterCollisions_sameInput cc
  refine ⟨_, hu, by rw [ha.1, v3'], by rw [ha.2.1, v4'], by rw [hi.2, v1],
    by rw [ha.2.2.1, v2], by rw [ha.2.2.2, s4], ?_, afterCollisions_level cc, ?_, ?_⟩
  · exact ⟨hi.1.width.trans v5.width, hi.1.height.trans v5.height, hi.1.keys.trans v5.keys,
      hi.1.mouseX.trans v5.mouseX, hi.1.mouseY.trans v5.mouseY,
      hi.1.isDragging.trans v5.isDragging, hi.1.lastEnemySpawn.trans v5.lastEnemySpawn⟩
  · apply afterCollisions_rate
    rw [s3, s1]
    show g.enemySpawnRate = spawnRateOf g.level
    rw [h.rate, h.level, spawnRateOf_one]
  · intro hpos
    rw [((afterCollisions_gameOver cc).2 (by rw [v4']; exact hpos)).1, s2]
    exact h.running

/-- The same frame when the score stays below 500 and a life is left: the session goes on. -/
theorem scene_volley_tick (now : ℚ) (g : Game) (sc lv : ℤ) (last : ℚ) (n : ℕ)
    (h : Scene g sc lv last 25 300 (List.replicate n (Bullet.new env1 25 300 0))
      [flyingEnemy 40])
    (hnow : ¬ fl (now - last) > fl (2 * 1000))
    (hs0 : 0 ≤ sc) (hs5 : sc + 10 * n < 500) (hlv : 0 < lv - 1) :
    Scene (tick now g) (sc + 10 * n) (lv - 1) last 25 300 [] [] := by
  obtain ⟨g1, hu, a1, a2, a3, a4, a5, a6, a7, a8, a9⟩ := scene_volley now g sc lv last n h hnow
  have hlev : g1.level = 1 := by
    rw [a7, a1]
    exact (scene_level (sc + 10 * n) (by positivity) hs5).symm
  have hrate : g1.enemySpawnRate = 2 := by rw [a8, hlev, spawnRateOf_one]
  unfold tick
  rw [hu]
  exact ⟨a6.width.trans h.width, a6.height.trans h.height, a5, a3, a4, a1, hlev, a2, a9 hlv,
    hrate, a6.lastEnemySpawn.trans h.last, a6.keys.trans h.keys,
    a6.mouseX.trans h.mouseX, a6.mouseY.trans h.mouseY, a6.isDragging.trans h.dragging⟩

/-! ### The session: its states are reachable -/

theorem reachable_tick_session {g : Game} (now : ℚ) (h : Reachable g) :
    Reachable (tick now g) := by
  unfold tick
  cases hu : Game.update env1 now now g with
  | none => exact h
  | some g1 => exact Reachable.update env1 now now h hu

theorem reachable_ticks {g : Game} (now : ℚ) (h : Reachable g) (n : ℕ) :
    Reachable ((tick now)^[n] g) := by
  induction n with
  | zero => exact h
  | succ k ih =>
    rw [Function.iterate_succ_apply']
    exact reachable_tick_session now ih

theorem reachable_dragTo {g : Game} (x y x1 y1 : ℚ) (h : Reachable g) :
    Reachable (dragTo g x y x1 y1) :=
  Reachable.listener (Reachable.listener (Reachable.listener h (Listener.mousedown x y))
    (Listener.mousemove x1 y1)) Listener.mouseup

theorem reachable_clicks {g : Game} (h : Reachable g) (n : ℕ) : Reachable (clicks n g) := by
  unfold clicks
  induction n with
  | zero => exact h
  | succ k ih =>
    rw [Function.iterate_succ_apply']
    exact Reachable.listener ih (Listener.click env1)

theorem spawn_at_3000 : fl (3000 - 0) > fl (2 * 1000) := by
  rw [sub_zero, fl_3000, show (2 : ℚ) * 1000 = 2000 from by norm_num, fl_2000]
  norm_num

theorem spawn_at_6000 : fl (6000 - 3000) > fl (2 * 1000) := by
  rw [show (6000 : ℚ) - 3000 = 3000 from by norm_num, fl_3000,
    show (2 : ℚ) * 1000 = 2000 from by norm_num, fl_2000]
  norm_num

theorem volleyGame_reachable (n : ℕ) : Reachable (volleyGame n) :=
  reachable_clicks (reachable_dragTo _ _ _ _ (reachable_ticks 3000
    (Reachable.listener (Reachable.start (Reachable.init 800 600)) (Listener.mousemove 400 520))
    40)) n

/-- The state of the session after `n` clicks: the enemy at `x = 32`, the ship at
`(25, 300)`, `n` bullets on the ship. -/
theorem volleyGame_scene (n : ℕ) :
    Scene (volleyGame n) 0 3 3000 25 300 (List.replicate n (Bullet.new env1 25 300 0))
      [flyingEnemy 40] := by
  have h1 := scene_flyIn 3000 _ 0 3 0 scene_start (le_refl _) (by norm_num) (by norm_num)
    spawn_at_3000
  have h2 := scene_clicks _ 0 3 3000 25 300 [] [flyingEnemy 40]
    (scene_drag _ 0 3 3000 400 520 25 300 [] [flyingEnemy 40] h1) n
  rw [List.nil_append] at h2
  exact h2

theorem scene480_reachable : Reachable scene480 :=
  reachable_clicks (reachable_dragTo _ _ _ _ (reachable_ticks 6000
    (reachable_dragTo _ _ _ _ (reachable_tick_session 3000 (volleyGame_reachable 48))) 40)) 4

/-- The state of the session at score 480: 2 lives, the second enemy at `x = 32`, the ship
at `(25, 300)`, 4 bullets on the ship. -/
theorem scene480_scene :
    Scene scene480 480 2 6000 25 300 (List.replicate 4 (Bullet.new env1 25 300 0))
      [flyingEnemy 40] := by
  have h0 := scene_volley_tick 3000 _ 0 3 3000 48 (volleyGame_scene 48)
    (no_spawn_same_clock 3000) (le_refl _) (by norm_num) (by norm_num)
  have h1 := scene_drag _ _ _ 3000 25 300 400 520 [] [] h0
  have h2 := scene_flyIn 6000 _ _ _ 3000 h1 (by norm_num) (by norm_num) (by norm_num)
    spawn_at_6000
  have h3 := scene_clicks _ _ _ 6000 25 300 [] [flyingEnemy 40]
    (scene_drag _ _ _ 6000 400 520 25 300 [] [flyingEnemy 40] h2) 4
  rw [List.nil_append] at h3
  have e1 : (0 : ℤ) + 10 * ((48 : ℕ) : ℤ) = 480 := by norm_num
  have e2 : (3 : ℤ) - 1 = 2 := by norm_num
  rw [e1, e2] at h3
  exact h3

/-! ### Concrete circles -/

theorem enemyAt_update (x y : ℚ) : (enemyAt x y).update env0 = enemyAt x y := by
  simp [Enemy.update, enemyAt, Enemy.new, env0]

theorem enemyAt_health (x y : ℚ) : (enemyAt x y).health = 1 := by
  norm_num [enemyAt, Enemy.new]

theorem enemyAt_points (x y : ℚ) : (enemyAt x y).points = 10 := by
  norm_num [enemyAt, Enemy.new]

theorem player_on_enemy : (Player.new 400 520).collidesWith (enemyAt 400 520) = true := by
  apply player_collides_of_lt <;> norm_num [Player.new, enemyAt, Enemy.new]

theorem player_on_neighbour : (Player.new 400 520).collidesWith (enemyAt 401 520) = true := by
  apply player_collides_of_lt <;> norm_num [Player.new, enemyAt, Enemy.new]

theorem tickPlayer_started (g : Game) (hw : g.width = 800) (hh : g.height = 600)
    (hk : g.keys = Keys.released) :
    Game.tickPlayer env0 (Player.new 400 520) g = Player.new 400 520 := by
  simp [Game.tickPlayer, Player.update, Player.aimAt, Player.new, env0, hw, hh, hk,
    Keys.released]
  constructor <;> norm_num

/-! ### C5: the witness -/

theorem lastLifeGame_before :
    Game.beforeCollisions env0 0 0 (Player.new 400 520) lastLifeGame =
      { lastLifeGame with
        player := some (Player.new 400 520), bullets := [], enemies := [enemyAt 400 520] } := by
  rw [beforeCollisions_noSpawn env0 0 0 (Player.new 400 520) lastLifeGame
    (no_spawn_same_clock 0), tickPlayer_started lastLifeGame rfl rfl rfl]
  have he : updateEnemies env0 lastLifeGame.enemies = [enemyAt 400 520] := by
    show updateEnemies env0 [enemyAt 400 520] = _
    rw [updateEnemies_singleton env0 _ (by rw [enemyAt_health]; norm_num), enemyAt_update]
  rw [he]
  rfl

theorem lastLifeGame_one_overlap :
    (Game.atPlayerPass env0 0 0 (Player.new 400 520) lastLifeGame).enemies.countP
      (fun e => (Game.tickPlayer env0 (Player.new 400 520) lastLifeGame).collidesWith e) = 1 := by
  unfold Game.atPlayerPass
  rw [lastLifeGame_before, tickPlayer_started lastLifeGame rfl rfl rfl]
  show List.countP (fun e => (Player.new 400 520).collidesWith e) [enemyAt 400 520] = 1
  simp [List.countP_cons, player_on_enemy]

theorem lastLifeGame_player : lastLifeGame.player = some (Player.new 400 520) := by
  norm_num [lastLifeGame, startedGame, Game.start, Game.init]

/-- Witness of `last_life_game_over`: the engine `lastLifeGame`, whose only enemy sits on
the player. -/
theorem last_life_game_over_witness :
    ∃ g1, Game.update env0 0 0 lastLifeGame = some g1 ∧ g1.lives = 0 ∧ g1.gameRunning = false ∧
      g1.log.count Event.onGameOver = lastLifeGame.log.count Event.onGameOver + 1 ∧
      ∀ g2, LaterWithoutStart g1 g2 →
        g2.gameRunning = false ∧
        ∀ (env2 : Env) (t1 t2 : ℚ), Game.update env2 t1 t2 g2 = some g2 :=
  last_life_game_over env0 0 0 lastLifeGame (Player.new 400 520) rfl lastLifeGame_player rfl
    lastLifeGame_one_overlap

/-! ### C8: score and lives across a tick -/

theorem reachable_tick {g : Game} (hg : Reachable g) (hrun : g.gameRunning = true)
    (env : Env) (now1 now2 : ℚ) :
    ∃ p, g.player = some p ∧
      Game.update env now1 now2 g =
        some (Game.afterCollisions (Game.checkCollisions env (Game.tickPlayer env p g)
          (Game.beforeCollisions env now1 now2 p g))) := by
  obtain ⟨p, hp⟩ := Option.isSome_iff_exists.mp ((reachable_inv hg).player_of_running hrun)
  exact ⟨p, hp, update_running env now1 now2 g p hrun hp⟩

/-- C8: a tick of `update` in a reachable running state returns, with a score that is not
lower and a number of lives that is not higher than before; `start` and the
listeners leave both as they are. -/
theorem score_lives_monotone (g : Game) (hg : Reachable g) (hrun : g.gameRunning = true)
    (env : Env) (now1 now2 : ℚ) :
    (∃ g1, Game.update env now1 now2 g = some g1 ∧ g.score ≤ g1.score ∧ g1.lives ≤ g.lives) ∧
    (g.start.score = g.score ∧ g.start.lives = g.lives) ∧
    (∀ g2, Listener g g2 → g2.score = g.score ∧ g2.lives = g.lives) := by
  obtain ⟨p, _, hu⟩ := reachable_tick hg hrun env now1 now2
  have hinv := reachable_inv hg
  have ht := tick_summary env now1 now2 g p
  refine ⟨⟨_, hu, (ht.2.2.2 (by linarith [hinv.level_pos]) hinv.points_nonneg).1, ht.1⟩, ?_, ?_⟩
  · simp [Game.start, hrun]
  · intro g2 h2
    exact ⟨(listener_frame h2).1, (listener_frame h2).2.1⟩

/-- Witness of `score_lives_monotone`: the reachable state `volleyGame 1`, whose tick has a
bullet kill the enemy (score 0 to 10) and the enemy hit the ship (lives 3 to 2). -/
theorem score_lives_monotone_witness :
    ((∃ g1, Game.update env1 3000 3000 (volleyGame 1) = some g1 ∧
        (volleyGame 1).score ≤ g1.score ∧ g1.lives ≤ (volleyGame 1).lives) ∧
      ((volleyGame 1).start.score = (volleyGame 1).score ∧
        (volleyGame 1).start.lives = (volleyGame 1).lives) ∧
      (∀ g2, Listener (volleyGame 1) g2 →
        g2.score = (volleyGame 1).score ∧ g2.lives = (volleyGame 1).lives)) ∧
    (Reachable (volleyGame 1) ∧ (volleyGame 1).score = 0 ∧ (volleyGame 1).lives = 3 ∧
      ∃ g1, Game.update env1 3000 3000 (volleyGame 1) = some g1 ∧ g1.score = 10 ∧
        g1.lives = 2) :=
  ⟨score_lives_monotone (volleyGame 1) (volleyGame_reachable 1) (volleyGame_scene 1).running
      env1 3000 3000,
    volleyGame_reachable 1, (volleyGame_scene 1).score, (volleyGame_scene 1).lives,
    (scene_volley 3000 (volleyGame 1) 0 3 3000 1 (volleyGame_scene 1)
      (no_spawn_same_clock 3000)).imp
      (fun _ h => ⟨h.1, by rw [h.2.1]; norm_num, by rw [h.2.2.1]; norm_num⟩)⟩

/-! ### C6: level and cadence -/

theorem session_tick_level (g1 : Game) (s : ℤ) (l : ℤ) (hs : g1.score = s)
    (hl : g1.level = Int.floor ((g1.score : ℚ) / 500) + 1)
    (h : Int.floor ((s : ℚ) / 500) + 1 = l) : g1.level = l := by
  rw [hl, hs, h]

/-- C6 as stated fails: the reachable state `volleyGame 300` is running, its tick ends with
score 3000 and level 7, and the stored cadence is the double `0.7999999999999998`,
which is neither `max(0.5, 2 - (7 - 1) * 0.2) = 0.8` nor the double nearest to it. -/
theorem cadence_differs_at_level_seven :
    Reachable (volleyGame 300) ∧ (volleyGame 300).gameRunning = true ∧
    ∃ g1, Game.update env1 3000 3000 (volleyGame 300) = some g1 ∧ g1.score = 3000 ∧
      g1.level = 7 ∧ g1.enemySpawnRate = 900719925474099 / 1125899906842624 ∧
      g1.enemySpawnRate ≠ max 0.5 (2 - ((g1.level : ℚ) - 1) * 0.2) ∧
      g1.enemySpawnRate ≠ fl (max 0.5 (2 - ((g1.level : ℚ) - 1) * 0.2)) := by
  refine ⟨volleyGame_reachable 300, (volleyGame_scene 300).running, ?_⟩
  obtain ⟨g1, hu, a1, _, _, _, _, _, a7, a8, _⟩ :=
    scene_volley 3000 (volleyGame 300) 0 3 3000 300 (volleyGame_scene 300)
      (no_spawn_same_clock 3000)
  have hs : g1.score = 3000 := by rw [a1]; norm_num
  have hl : g1.level = 7 := session_tick_level g1 3000 7 hs a7 (by norm_num)
  have hr : g1.enemySpawnRate = 900719925474099 / 1125899906842624 := by
    rw [a8, hl, spawnRateOf_seven]
  refine ⟨g1, hu, hs, hl, hr, ?_, ?_⟩
  · rw [hr, hl]
    norm_num
  · rw [hr, hl, show max (0.5 : ℚ) (2 - (((7 : ℤ) : ℚ) - 1) * 0.2) = 0.8 from by norm_num,
      fl_lit_08]
    norm_num

/-- C6 (amended): a tick of `update` in a reachable running state returns with
`level = floor(score / 500) + 1` and with the cadence stored as the code
evaluates `max(0.5, 2 - (level - 1) * 0.2)` in doubles (`spawnRateOf`); this value
is within `2 ^ (-52)` of the exact one, at least 0.5, and does not increase with
the level; a tick that ends with score 520 ends with level 2 and with the
double `1.8` as cadence. -/
theorem level_cadence_after_tick (g : Game) (hg : Reachable g) (hrun : g.gameRunning = true)
    (env : Env) (now1 now2 : ℚ) :
    ∃ g1, Game.update env now1 now2 g = some g1 ∧
      g1.level = Int.floor ((g1.score : ℚ) / 500) + 1 ∧
      g1.enemySpawnRate = spawnRateOf g1.level ∧
      |g1.enemySpawnRate - specCadence g1.level| ≤ 2 ^ (-52 : ℤ) ∧
      0.5 ≤ g1.enemySpawnRate ∧
      (∀ l1 l2 : ℤ, 1 ≤ l1 → l1 ≤ l2 → spawnRateOf l2 ≤ spawnRateOf l1) ∧
      (g1.score = 520 → g1.level = 2 ∧ g1.enemySpawnRate = fl 1.8) := by
  obtain ⟨p, _, hu⟩ := reachable_tick hg hrun env now1 now2
  have hinv := reachable_inv (Reachable.update env now1 now2 hg hu)
  have hf := spawnRateOf_facts _ hinv.level_pos
  refine ⟨_, hu, hinv.level_eq, hinv.rate_eq, ?_, ?_, spawnRateOf_antitone, ?_⟩
  · rw [hinv.rate_eq]
    exact hf.2.1
  · rw [hinv.rate_eq]
    refine le_trans (by norm_num) hf.1
  · intro hs
    have h2 := session_tick_level _ 520 2 hs hinv.level_eq (by norm_num)
    refine ⟨h2, ?_⟩
    rw [hinv.rate_eq, h2, spawnRateOf_two, fl_lit_18]

/-- Witness of `level_cadence_after_tick`: the reachable state `scene480` at score 480,
level 1 and cadence 2, whose tick has four bullets kill the enemy and ends
with score 520, level 2 and the double `1.8` as cadence. -/
theorem level_cadence_after_tick_witness :
    (∃ g1, Game.update env1 6000 6000 scene480 = some g1 ∧
      g1.level = Int.floor ((g1.score : ℚ) / 500) + 1 ∧
      g1.enemySpawnRate = spawnRateOf g1.level ∧
      |g1.enemySpawnRate - specCadence g1.level| ≤ 2 ^ (-52 : ℤ) ∧
      0.5 ≤ g1.enemySpawnRate ∧
      (∀ l1 l2 : ℤ, 1 ≤ l1 → l1 ≤ l2 → spawnRateOf l2 ≤ spawnRateOf l1) ∧
      (g1.score = 520 → g1.level = 2 ∧ g1.enemySpawnRate = fl 1.8)) ∧
    (Reachable scene480 ∧ scene480.score = 480 ∧ scene480.level = 1 ∧
      scene480.enemySpawnRate = 2 ∧
      ∃ g1, Game.update env1 6000 6000 scene480 = some g1 ∧ g1.score = 520) :=
  ⟨level_cadence_after_tick scene480 scene480_reachable scene480_scene.running env1 6000 6000,
    scene480_reachable, scene480_scene.score, scene480_scene.level, scene480_scene.rate,
    (scene_volley 6000 scene480 480 2 6000 4 scene480_scene (no_spawn_same_clock 6000)).imp
      (fun _ h => ⟨h.1, by rw [h.2.1]; norm_num⟩)⟩

/-! ### C7: `start` in the terminal state -/

/-- C7 as stated fails: `overGame` is not running and has no life left, and `start()`
without a `reset()` before it makes it running. -/
theorem start_revives_over_game :
    overGame.gameRunning = false ∧ overGame.lives ≤ 0 ∧ overGame.start.gameRunning = true := by
  refine ⟨rfl, ?_, rfl⟩
  norm_num [overGame]

/-- C7 (amended): from a state that is not running and has no life left, `start()` alone
sets the engine running, and the first tick of `update` after it stops the
engine again, with no life left and `onGameOver` invoked last; `reset()`
followed by `start()` gives a running engine with 3 lives. -/
theorem start_without_reset_stops_again (g : Game) (hrun : g.gameRunning = false)
    (hl : g.lives ≤ 0) :
    g.start.gameRunning = true ∧
    (∀ (env : Env) (now1 now2 : ℚ), ∃ g1, Game.update env now1 now2 g.start = some g1 ∧
      g1.gameRunning = false ∧ g1.lives ≤ 0 ∧ g1.log.getLast? = some Event.onGameOver) ∧
    (g.reset.start.gameRunning = true ∧ g.reset.start.lives = 3) := by
  have hs : g.start.gameRunning = true := by simp [Game.start, hrun]
  have hp : g.start.player = some (Player.new (g.width / 2) (g.height - 80)) := by
    simp [Game.start, hrun]
  have hsl : g.start.lives = g.lives := by simp [Game.start, hrun]
  refine ⟨hs, ?_, by simp [Game.start, Game.reset], by simp [Game.start, Game.reset]⟩
  intro env now1 now2
  refine ⟨_, update_running env now1 now2 g.start _ hs hp, ?_⟩
  have ht := tick_summary env now1 now2 g.start (Player.new (g.width / 2) (g.height - 80))
  have ha := afterCollisions_frame (Game.checkCollisions env
    (Game.tickPlayer env (Player.new (g.width / 2) (g.height - 80)) g.start)
    (Game.beforeCollisions env now1 now2 (Player.new (g.width / 2) (g.height - 80)) g.start))
  have hle : (Game.checkCollisions env
      (Game.tickPlayer env (Player.new (g.width / 2) (g.height - 80)) g.start)
      (Game.beforeCollisions env now1 now2 (Player.new (g.width / 2) (g.height - 80))
        g.start)).lives ≤ 0 := by
    rw [← ha.2.1]
    linarith [ht.1]
  have hover := (afterCollisions_gameOver _).1 hle
  refine ⟨hover.1, by linarith [ht.1], ?_⟩
  rw [hover.2]
  exact List.getLast?_concat _

/-- Witness of `start_without_reset_stops_again`: the stopped engine `overGame`. -/
theorem start_without_reset_stops_again_witness :
    overGame.start.gameRunning = true ∧
    (∀ (env : Env) (now1 now2 : ℚ), ∃ g1, Game.update env now1 now2 overGame.start = some g1 ∧
      g1.gameRunning = false ∧ g1.lives ≤ 0 ∧ g1.log.getLast? = some Event.onGameOver) ∧
    (overGame.reset.start.gameRunning = true ∧ overGame.reset.start.lives = 3) :=
  start_without_reset_stops_again overGame rfl (by norm_num [overGame])

/-! ### C10: the bullet pass of `checkCollisions` -/

theorem bullets_on_enemy :
    ∀ b ∈ doubleHitGame.bullets, b.collidesWith (enemyAt 100 100) = true := by
  intro b hb
  have hb1 : b ∈ [bulletAt 100 100, bulletAt 101 100] := hb
  simp only [List.mem_cons, List.mem_singleton, List.not_mem_nil, or_false] at hb1
  rcases hb1 with h | h <;> rw [h] <;> apply bullet_collides_of_lt <;>
    norm_num [bulletAt, Bullet.new, enemyAt, Enemy.new]

/-- C10 fails on the code: with two bullets on one enemy of health 1 and 10 points, the
bullet pass gives the score for the enemy twice (the second hit takes the
health from 0 to -1 and is scored as well). -/
theorem double_score_for_one_enemy :
    doubleHitGame.enemies = [enemyAt 100 100] ∧ (enemyAt 100 100).health = 1 ∧
    (enemyAt 100 100).points = 10 ∧
    (Game.bulletEnemyLoop env0 doubleHitGame.bullets.length doubleHitGame).score =
      doubleHitGame.score + 20 ∧
    (Game.bulletEnemyLoop env0 doubleHitGame.bullets.length doubleHitGame).enemies =
      [{ enemyAt 100 100 with health := -1 }] ∧
    (Game.bulletEnemyLoop env0 doubleHitGame.bullets.length doubleHitGame).bullets = [] := by
  obtain ⟨h1, h2, h3⟩ := bulletEnemyLoop_all_hit env0 doubleHitGame.bullets.length
    doubleHitGame (enemyAt 100 100) rfl bullets_on_enemy rfl (by rw [enemyAt_health])
  refine ⟨rfl, enemyAt_health _ _, enemyAt_points _ _, ?_, ?_, h1⟩
  · rw [h3, enemyAt_points]
    show doubleHitGame.score + ((2 : ℕ) : ℤ) * 10 = _
    norm_num
  · rw [h2, enemyAt_health]
    show [{ enemyAt 100 100 with health := 1 - ((2 : ℕ) : ℤ) }] = _
    norm_num

/-! ### C9: the player pass of `checkCollisions` -/

/-- The player pass on two enemies of which the first overlaps the player: the first is
spliced out and the iterator, now at index 1 of an array of length 1, ends. -/
theorem enemyPlayerLoop_two (env : Env) (p : Player) (g : Game) (e1 e2 : Enemy)
    (h : g.enemies = [e1, e2]) (h1 : p.collidesWith e1 = true) :
    Game.enemyPlayerLoop env p 2 0 g = Game.playerHit env p g 0 := by
  have hstep : Game.enemyPlayerLoop env p 2 0 g =
      Game.enemyPlayerLoop env p 1 1 (Game.playerHit env p g 0) := by
    rw [show (2 : ℕ) = 1 + 1 from rfl, Game.enemyPlayerLoop]
    simp only [h, List.getElem?_cons_zero, h1, if_true]
  rw [hstep, show (1 : ℕ) = 0 + 1 from rfl, Game.enemyPlayerLoop]
  have hn : (Game.playerHit env p g 0).enemies[0 + 1]? = none := by
    rw [playerHit_enemies, h]
    rfl
  simp only [hn]

/-- C9 fails on the code: with two enemies on the player that are neighbours in
`this.enemies`, the pass removes the first, steps over the second (it has moved
into the index the iterator has left) and takes one life, not two; the second
enemy is still in the list and still overlaps the player. -/
theorem neighbour_enemy_skipped :
    twoOverlapGame.enemies.countP (fun e => (Player.new 400 520).collidesWith e) = 2 ∧
    (Game.enemyPlayerLoop env0 (Player.new 400 520) twoOverlapGame.enemies.length 0
      twoOverlapGame).lives = twoOverlapGame.lives - 1 ∧
    (Game.enemyPlayerLoop env0 (Player.new 400 520) twoOverlapGame.enemies.length 0
      twoOverlapGame).enemies = [enemyAt 401 520] ∧
    (Player.new 400 520).collidesWith (enemyAt 401 520) = true := by
  have hl := enemyPlayerLoop_two env0 (Player.new 400 520) twoOverlapGame (enemyAt 400 520)
    (enemyAt 401 520) rfl player_on_enemy
  have hlen : twoOverlapGame.enemies.length = 2 := rfl
  rw [hlen, hl]
  refine ⟨?_, rfl, rfl, player_on_neighbour⟩
  show List.countP (fun e => (Player.new 400 520).collidesWith e)
    [enemyAt 400 520, enemyAt 401 520] = 2
  simp [List.countP_cons, player_on_enemy, player_on_neighbour]

end SpaceShooter
